import Mathlib

/-!
Verification development for the `unsecure` library's core components:
the unbiased bounded random number generator (one-shot `secureRandomNumber`
and the buffered session created by `createSecureRandomGenerator`), the
Fisher-Yates `secureShuffle`, the `secureGenerate` string generator, and the
constant-time `secureCompare` comparator.

The platform entropy source (`crypto.getRandomValues`) is modelled as an
infinite stream `stream : Nat → Nat` of raw 32-bit words: the k-th word the
program would obtain from the platform is `stream k`.  The rejection-sampling
loop, which in the source runs until a word is accepted, is modelled with
explicit fuel: `none` means the loop was still running when the fuel ran out,
so every result the code actually returns shows up as a `some`.
-/

namespace Unsecure

/-- The size of the raw 32-bit word domain, `2 ** 32` in the source. -/
def TWO32 : Nat := 2 ^ 32

/-- A JavaScript number as the generator's validation inspects it: either an
integer value, or some number for which `Number.isInteger` is false. -/
inductive JSNum where
  | int (n : Int)
  | nonInt
deriving DecidableEq, Repr

/-- Model of `Number.isInteger`. -/
def JSNum.isInteger : JSNum → Bool
  | .int _ => true
  | .nonInt => false

/-- The runtime shapes the `ignore` argument can take, as the source's
`instanceof Set` / `typeof` / `Symbol.iterator` introspection distinguishes
them: a native `Set<number>` (whose distinct members are listed), an array or
other non-string iterable of numbers, a bare string, or a non-iterable
value. -/
inductive IgnoreInput where
  | jsSet (elems : List JSNum)
  | jsIter (elems : List JSNum)
  | jsStr (s : String)
  | notIterable
deriving DecidableEq, Repr

/-- The error kinds `next` / `secureRandomNumber` can raise:
`RangeError "min and max must be integers." / "max must be greater than min."`,
`RangeError "range must be less than or equal to 2^32."`,
`TypeError "ignore must be an iterable of numbers or a Set<number>."`, and
`RangeError "Ignore set excludes all possible values in the range."`. -/
inductive DrawError where
  | invalidRange
  | rangeTooLarge
  | invalidIgnoreType
  | exhaustedRange
deriving DecidableEq, Repr

/-- The two call shapes of the overloaded `next` / `secureRandomNumber`:
`next(max, ignore?)` and `next(min, max, ignore?)`. -/
inductive NextArgs where
  | one (max : JSNum) (ignore : Option IgnoreInput)
  | two (min max : JSNum) (ignore : Option IgnoreInput)
deriving DecidableEq, Repr

/-- The overload-dispatch both functions perform: when the second argument is
a number the call is `(min, max, ignore)`, otherwise `min` defaults to `0`. -/
def parseArgs : NextArgs → JSNum × JSNum × Option IgnoreInput
  | .one max ignore => (.int 0, max, ignore)
  | .two min max ignore => (min, max, ignore)

/-- Normalization of the `ignore` argument: a native `Set` is used directly,
a non-string iterable is poured into `new Set(...)` (which keeps one copy of
each member), a bare string or a non-iterable value raises a `TypeError`. -/
def normalizeIgnore : IgnoreInput → Except DrawError (List JSNum)
  | .jsSet elems => .ok elems
  | .jsIter elems => .ok elems.dedup
  | .jsStr _ => .error .invalidIgnoreType
  | .notIterable => .error .invalidIgnoreType

/-- The loop counting how many members of the (normalized) ignore set are
integers falling inside `[min, max)`; non-integer members are skipped
(`if (!Number.isInteger(v)) continue`). -/
def countExcludedInRange (min max : Int) (elems : List JSNum) : Nat :=
  elems.countP fun v =>
    match v with
    | .int n => decide (min ≤ n) && decide (n < max)
    | .nonInt => false

/-- Model of `ignoreSet !== undefined && ignoreSet.has(candidate)`:
`candidate` is an integer, and `Set.has` uses SameValueZero equality. -/
def ignoreHas (ignoreSet : Option (List JSNum)) (candidate : Int) : Bool :=
  match ignoreSet with
  | none => false
  | some elems => elems.contains (.int candidate)

/-- The sanity check raising `RangeError` when the ignore set excludes every
value of `[min, max)` (the counting loop's early throw happens exactly when
the final count reaches `range`). -/
def exhaustedCheck (min max : Int) (range : Nat) : Option (List JSNum) → Bool
  | none => false
  | some elems => decide (countExcludedInRange min max elems ≥ range)

/-! ### IEEE-754 double arithmetic on integers

JS numbers are binary64 doubles, so `min + (randomValue % range)` rounds the
exact integer sum to the nearest representable double once its magnitude
exceeds `2^53`.  Both operands of that addition are themselves representable
(a validated `min` is a JS number, and `randomValue % range < 2^32`), so the
operation returns the round-to-nearest-even of the exact sum.  Overflow to
infinity is not modeled: it is unreachable, since the exact sum exceeds
`min` by less than `2^32`, far below the spacing at the top binade. -/

/-- Fuel-driven binary logarithm: `natLog2Aux fuel n` peels one bit per
step. -/
def natLog2Aux : Nat → Nat → Nat
  | 0, _ => 0
  | fuel + 1, n => if n ≥ 2 then natLog2Aux fuel (n / 2) + 1 else 0

/-- The binary logarithm (0 for `n = 0`); `n` itself is always enough fuel. -/
def natLog2 (n : Nat) : Nat := natLog2Aux n n

/-- Round `m` to the nearest multiple of `ulp`, ties to the even multiple. -/
def roundNearestEven (m ulp : Nat) : Nat :=
  let q := m / ulp
  let r := m % ulp
  if 2 * r < ulp then q * ulp
  else if ulp < 2 * r then (q + 1) * ulp
  else if q % 2 = 0 then q * ulp else (q + 1) * ulp

/-- Round a nonnegative integer to the nearest binary64 value: exact up to
`2^53`; beyond that the spacing of representable values in the binade of `m`
is `2^(log2 m - 52)`. -/
def roundNatToDouble (m : Nat) : Nat :=
  if m ≤ 2 ^ 53 then m
  else roundNearestEven m (2 ^ (natLog2 m - 52))

/-- Round an integer to the nearest binary64 value (IEEE-754 rounding is
symmetric under negation). -/
def roundToDouble (n : Int) : Int :=
  if n < 0 then -(roundNatToDouble n.natAbs : Int) else (roundNatToDouble n.toNat : Int)

/-- The JS `+` on two integer-valued doubles: the exact sum, rounded to the
nearest representable double (round to nearest, ties to even). -/
def jsAdd (a b : Int) : Int := roundToDouble (a + b)

/-! ### One-shot mode: `secureRandomNumber`

In one-shot mode each loop iteration fetches a fresh word from the entropy
source, so the iteration starting at stream position `pos` reads `stream pos`.
-/

/-- The `do { ... } while (randomValue >= maxSafe || ignoreSet.has(candidate))`
loop of `secureRandomNumber`, reading the words `stream pos, stream (pos+1), …`
and returning the accepted candidate together with the next unread stream
position. -/
def sampleLoopOneShot (stream : Nat → Nat) (min : Int) (range maxSafe : Nat)
    (ignoreSet : Option (List JSNum)) : Nat → Nat → Option (Int × Nat)
  | _, 0 => none
  | pos, fuel + 1 =>
    let randomValue := stream pos
    let candidate := jsAdd min (Int.ofNat (randomValue % range))
    if randomValue ≥ maxSafe || ignoreHas ignoreSet candidate then
      sampleLoopOneShot stream min range maxSafe ignoreSet (pos + 1) fuel
    else
      some (candidate, pos + 1)

/-- `secureRandomNumber` (the one-shot draw): overload dispatch, validation of
the bounds, the `range > 2 ** 32` check, ignore normalization, the
exhausted-range sanity check, then rejection sampling starting at stream
position 0. -/
def secureRandomNumber (stream : Nat → Nat) (args : NextArgs) (fuel : Nat) :
    Except DrawError (Option Int) :=
  let (minJ, maxJ, rawIgnore) := parseArgs args
  match minJ, maxJ with
  | .int min, .int max =>
    if max ≤ min then .error .invalidRange
    else
      let range := (max - min).toNat
      if range > TWO32 then .error .rangeTooLarge
      else
        let norm : Except DrawError (Option (List JSNum)) :=
          match rawIgnore with
          | none => .ok none
          | some ig => (normalizeIgnore ig).map some
        match norm with
        | .error e => .error e
        | .ok ignoreSet =>
          if exhaustedCheck min max range ignoreSet then .error .exhaustedRange
          else
            let maxSafe := TWO32 - TWO32 % range
            .ok ((sampleLoopOneShot stream min range maxSafe ignoreSet 0 fuel).map Prod.fst)
  | _, _ => .error .invalidRange

/-! ### Session mode: `createSecureRandomGenerator`

The session owns a 256-word buffer and a cursor; `_refillBuffer` fetches a
fresh block from the entropy source.  The state records the buffer contents,
the cursor `index`, and `pos`, the number of stream words fetched so far. -/

/-- `BUFFER_SIZE = 256`. -/
def BUFFER_SIZE : Nat := 256

/-- State of a buffered generator session: the `Uint32Array(256)` buffer, the
cursor `index` into it, and `pos`, the count of entropy-stream words consumed
by refills so far. -/
structure GenState where
  buffer : List Nat
  index : Nat
  pos : Nat
deriving DecidableEq, Repr

/-- The freshly created generator: a zeroed buffer with
`index = BUFFER_SIZE` to force a refill on the first call. -/
def initState : GenState :=
  { buffer := List.replicate BUFFER_SIZE 0, index := BUFFER_SIZE, pos := 0 }

/-- `_refillBuffer`: fill the buffer with the next `BUFFER_SIZE` stream words
and reset the cursor. -/
def refillBuffer (stream : Nat → Nat) (st : GenState) : GenState :=
  { buffer := (List.range BUFFER_SIZE).map fun i => stream (st.pos + i)
    index := 0
    pos := st.pos + BUFFER_SIZE }

/-- `if (index >= BUFFER_SIZE) { _refillBuffer(); } randomValue = buffer[index++]`. -/
def takeWord (stream : Nat → Nat) (st : GenState) : Nat × GenState :=
  if st.index ≥ BUFFER_SIZE then
    let st' := refillBuffer stream st
    (st'.buffer.getD st'.index 0, { st' with index := st'.index + 1 })
  else
    (st.buffer.getD st.index 0, { st with index := st.index + 1 })

/-- The rejection-sampling loop of the session's `next`, drawing words from
the buffer (refilling it when exhausted). -/
def sampleLoopGen (stream : Nat → Nat) (min : Int) (range maxSafe : Nat)
    (ignoreSet : Option (List JSNum)) : Nat → GenState → Option (Int × GenState)
  | 0, _ => none
  | fuel + 1, st =>
    let r := takeWord stream st
    let candidate := jsAdd min (Int.ofNat (r.fst % range))
    if r.fst ≥ maxSafe || ignoreHas ignoreSet candidate then
      sampleLoopGen stream min range maxSafe ignoreSet fuel r.snd
    else
      some (candidate, r.snd)

/-- The session's `next` method (from `createSecureRandomGenerator`): same
overload dispatch and validation as `secureRandomNumber`, but the sampling
loop reads from the session buffer, threading the session state. -/
def generatorNext (stream : Nat → Nat) (args : NextArgs) (fuel : Nat) (st : GenState) :
    Except DrawError (Option (Int × GenState)) :=
  let (minJ, maxJ, rawIgnore) := parseArgs args
  match minJ, maxJ with
  | .int min, .int max =>
    if max ≤ min then .error .invalidRange
    else
      let range := (max - min).toNat
      if range > TWO32 then .error .rangeTooLarge
      else
        let norm : Except DrawError (Option (List JSNum)) :=
          match rawIgnore with
          | none => .ok none
          | some ig => (normalizeIgnore ig).map some
        match norm with
        | .error e => .error e
        | .ok ignoreSet =>
          if exhaustedCheck min max range ignoreSet then .error .exhaustedRange
          else
            let maxSafe := TWO32 - TWO32 % range
            .ok (sampleLoopGen stream min range maxSafe ignoreSet fuel st)
  | _, _ => .error .invalidRange

/-! ### `secureShuffle` -/

/-- The destructuring swap
`[array[i], array[j]] = [array[j], array[i]]` (both indices are always in
bounds when the shuffle performs it). -/
def swapAt (l : List α) (i j : Nat) : List α :=
  match l.get? i, l.get? j with
  | some a, some b => (l.set i b).set j a
  | _, _ => l

/-- The Fisher-Yates loop `for (let i = array.length - 1; i > 0; i--)`: at
index `i = k + 1` it draws `j = gen.next(i + 1)` and swaps positions `i` and
`j`.  A generator failure cannot occur here (`i + 1 ≥ 2`); fuel exhaustion of
the inner rejection loop surfaces as `none`. -/
def shuffleLoop (stream : Nat → Nat) (fuel : Nat) :
    List α → Nat → GenState → Option (List α × GenState)
  | arr, 0, st => some (arr, st)
  | arr, k + 1, st =>
    match generatorNext stream (.one (.int ((k : Int) + 2)) none) fuel st with
    | .ok (some (j, st')) => shuffleLoop stream fuel (swapAt arr (k + 1) j.toNat) k st'
    | _ => none

/-- `secureShuffle(array, generator?)`: uses the supplied session state, or a
freshly created generator when none is given, and runs the Fisher-Yates loop
from the last index down to 1. -/
def secureShuffle (stream : Nat → Nat) (arr : List α) (genSt : Option GenState)
    (fuel : Nat) : Option (List α × GenState) :=
  let st := genSt.getD initState
  shuffleLoop stream fuel arr (arr.length - 1) st

/-! ### `secureCompare`

The comparator's operands are either text (encoded to bytes by the platform
`TextEncoder`, i.e. UTF-8) or a byte sequence (`Uint8Array`, modelled as a
list of byte values). -/

/-- Model of the platform `TextEncoder` for a single character (standard
UTF-8). -/
def utf8EncodeChar (c : Char) : List Nat :=
  let n := c.toNat
  if n < 0x80 then [n]
  else if n < 0x800 then
    [0xC0 ||| (n >>> 6), 0x80 ||| (n &&& 0x3F)]
  else if n < 0x10000 then
    [0xE0 ||| (n >>> 12), 0x80 ||| ((n >>> 6) &&& 0x3F), 0x80 ||| (n &&& 0x3F)]
  else
    [0xF0 ||| (n >>> 18), 0x80 ||| ((n >>> 12) &&& 0x3F),
     0x80 ||| ((n >>> 6) &&& 0x3F), 0x80 ||| (n &&& 0x3F)]

/-- Model of `textEncoder.encode`: the UTF-8 bytes of a string. -/
def encodeText (s : String) : List Nat :=
  s.data.flatMap utf8EncodeChar

/-- A comparator operand: a string or a `Uint8Array`. -/
inductive CompareInput where
  | text (s : String)
  | bytes (b : List Nat)
deriving DecidableEq, Repr

/-- `_toUint8Array`: strings are encoded to their UTF-8 bytes, byte sequences
are used as they are. -/
def _toUint8Array : CompareInput → List Nat
  | .text s => encodeText s
  | .bytes b => b

/-- The guard `!reference || reference.length === 0`: an absent operand is
handled by the caller (`Option`), so this decides whether the present operand
is empty (an empty string is also falsy, which the same guard catches). -/
def inputLength0 : CompareInput → Bool
  | .text s => s.isEmpty
  | .bytes b => b.isEmpty

/-- The single error `secureCompare` can raise:
`Error "Cannot verify. Reference is undefined."`. -/
inductive CompareError where
  | referenceUndefined
deriving DecidableEq, Repr

/-- The comparison loop
`for (const [i, element] of a.entries()) { mismatch |= element ^ (b[i] ?? 0) }`:
one iteration per byte of `a`, reading out-of-bounds positions of `b` as 0 and
OR-accumulating the XOR of the two bytes. -/
def mismatchFold : List Nat → List Nat → Nat → Nat
  | [], _, acc => acc
  | x :: xs, b, acc => mismatchFold xs b.tail (acc ||| (x ^^^ b.headD 0))

/-- `secureCompare(reference, incoming)`: reject an absent or empty reference,
otherwise encode both operands, seed the mismatch accumulator with 1 when
`incoming` is absent or with the XOR of the lengths, run the
constant-iteration loop, and report whether the accumulator stayed 0. -/
def secureCompare (reference incoming : Option CompareInput) :
    Except CompareError Bool :=
  match reference with
  | none => .error .referenceUndefined
  | some ref =>
    if inputLength0 ref then .error .referenceUndefined
    else
      let a := _toUint8Array ref
      let p : List Nat × Nat :=
        match incoming with
        | none => ([], 1)
        | some inc => (_toUint8Array inc, 0)
      let b := p.fst
      let isIncomingUndefined := p.snd
      let mismatch0 : Nat :=
        if isIncomingUndefined ≠ 0 then isIncomingUndefined
        else a.length ^^^ b.length
      .ok (mismatchFold a b mismatch0 == 0)

/-- The comparison loop instrumented with its iteration count: same
accumulator as `mismatchFold`, paired with the number of loop iterations
performed. -/
def mismatchFoldSteps : List Nat → List Nat → Nat → Nat × Nat
  | [], _, acc => (acc, 0)
  | x :: xs, b, acc =>
    let r := mismatchFoldSteps xs b.tail (acc ||| (x ^^^ b.headD 0))
    (r.fst, r.snd + 1)

/-- `secureCompare` instrumented with the number of iterations its comparison
loop performs (the work whose data-independence the design requires). -/
def secureCompareSteps (reference incoming : Option CompareInput) :
    Except CompareError (Bool × Nat) :=
  match reference with
  | none => .error .referenceUndefined
  | some ref =>
    if inputLength0 ref then .error .referenceUndefined
    else
      let a := _toUint8Array ref
      let p : List Nat × Nat :=
        match incoming with
        | none => ([], 1)
        | some inc => (_toUint8Array inc, 0)
      let b := p.fst
      let isIncomingUndefined := p.snd
      let mismatch0 : Nat :=
        if isIncomingUndefined ≠ 0 then isIncomingUndefined
        else a.length ^^^ b.length
      let r := mismatchFoldSteps a b mismatch0
      .ok (r.fst == 0, r.snd)

/-! ### `secureGenerate` -/

/-- Default character sets of the string generator. -/
def DEFAULT_UPPERCASE : String := "ABCDEFGHIJKLMNOPQRSTUVWXYZ"

/-- Default lowercase alphabet. -/
def DEFAULT_LOWERCASE : String := "abcdefghijklmnopqrstuvwxyz"

/-- Default digits alphabet. -/
def DEFAULT_NUMBERS : String := "0123456789"

/-- Default specials alphabet (`{` and `}` written as escapes). -/
def DEFAULT_SPECIALS : String := "!@#$%^&*()_+\x7b\x7d:<>?|[];,./~-="

/-- `DEFAULT_LENGTH = 16`. -/
def DEFAULT_LENGTH : Int := 16

/-- A character-class selector: the boolean flag or a custom alphabet
string. -/
inductive ClassOpt where
  | flag (b : Bool)
  | custom (s : String)
deriving DecidableEq, Repr

/-- The `timestamp` option: `true` (use the current time) or an explicit
`Date` (its millisecond value). -/
inductive TimestampOpt where
  | nowDate
  | explicitDate (ms : Nat)
deriving DecidableEq, Repr

/-- `SecureGenerateOptions`: every field optional. -/
structure SecureGenerateOptions where
  length : Option Int := none
  uppercase : Option ClassOpt := none
  lowercase : Option ClassOpt := none
  numbers : Option ClassOpt := none
  specials : Option ClassOpt := none
  timestamp : Option TimestampOpt := none
deriving DecidableEq, Repr

/-- The argument of the overloaded `secureGenerate`: a bare length or an
options object (calling it with no argument is `num DEFAULT_LENGTH`). -/
inductive GenArg where
  | num (length : Int)
  | opts (o : SecureGenerateOptions)
deriving DecidableEq, Repr

/-- The option values after the defaulting performed at the top of
`secureGenerate`. -/
structure ResolvedOptions where
  length : Int
  uppercase : ClassOpt
  lowercase : ClassOpt
  numbers : ClassOpt
  specials : ClassOpt
  timestamp : Option TimestampOpt
deriving DecidableEq, Repr

/-- The defaulting at the top of `secureGenerate`: a bare number sets the
length, every class defaults to `true`, the timestamp to disabled. -/
def resolveArg : GenArg → ResolvedOptions
  | .num length => ⟨length, .flag true, .flag true, .flag true, .flag true, none⟩
  | .opts o =>
    ⟨o.length.getD DEFAULT_LENGTH, o.uppercase.getD (.flag true),
     o.lowercase.getD (.flag true), o.numbers.getD (.flag true),
     o.specials.getD (.flag true), o.timestamp⟩

/-- The digit characters of `Number.prototype.toString(36)`: `0-9` then
`a-z`. -/
def base36DigitChar (d : Nat) : Char :=
  if d < 10 then Char.ofNat (48 + d) else Char.ofNat (87 + d)

/-- Big-endian base-36 digits of `n` (model of `n.toString(36)` for a
non-negative integer); structural recursion on a fuel argument that the
wrapper instantiates with `n` itself, which is ample since the value shrinks
by a factor of 36 per digit. -/
def toBase36Aux : Nat → Nat → List Char
  | 0, n => [base36DigitChar n]
  | fuel + 1, n =>
    if n < 36 then [base36DigitChar n]
    else toBase36Aux fuel (n / 36) ++ [base36DigitChar (n % 36)]

/-- Model of `date.getTime().toString(36)`. -/
def toBase36 (n : Nat) : String :=
  String.mk (toBase36Aux n n)

/-- The timestamp text `secureGenerate` computes for resolved options `r`
when the clock reads `now`: empty when disabled, else the base-36 encoding of
the chosen instant (`date.getTime().toString(36)`). -/
def timestampString (r : ResolvedOptions) (now : Nat) : String :=
  match r.timestamp with
  | none => ""
  | some .nowDate => toBase36 now
  | some (.explicitDate ms) => toBase36 ms

/-- The errors `secureGenerate` can raise: the two explicit length checks,
the no-character-types check, and (propagated) a generator error. -/
inductive GenError where
  | lengthError
  | timestampError
  | noCharTypes
  | drawError (e : DrawError)
deriving DecidableEq, Repr

/-- `_shouldIncludeSet`: a class is included when its selector is not `false`
and is either `true` or a non-empty string. -/
def _shouldIncludeSet : ClassOpt → Bool
  | .flag b => b
  | .custom s => decide (s.length > 0)

/-- The `used` alphabet `_characterSetBuilder` resolves: the custom string if
one was given, else the default alphabet. -/
def usedSet : ClassOpt → String → String
  | .custom s, _ => s
  | .flag _, defaultSet => defaultSet

/-- `_characterSetBuilder`: resolve the `used` alphabet and draw the
`guaranteed` character `used[random.next(used.length)]` from it. -/
def _characterSetBuilder (stream : Nat → Nat) (fuel : Nat) (set : ClassOpt)
    (defaultSet : String) (st : GenState) :
    Except DrawError (Option ((String × Char) × GenState)) :=
  let used := usedSet set defaultSet
  match generatorNext stream (.one (.int used.length) none) fuel st with
  | .error e => .error e
  | .ok none => .ok none
  | .ok (some (j, st')) => .ok (some ((used, used.data.getD j.toNat 'A'), st'))

/-- One of the four `if (_shouldIncludeSet(...)) { ... }` blocks: when the
class is included, append its `used` alphabet to the cumulative charset and
its `guaranteed` character to the guaranteed list. -/
def buildClass (stream : Nat → Nat) (fuel : Nat) (opt : ClassOpt) (dflt : String) :
    Except DrawError (Option ((String × List Char) × GenState)) →
    Except DrawError (Option ((String × List Char) × GenState))
  | .error e => .error e
  | .ok none => .ok none
  | .ok (some ((charset, guaranteed), st)) =>
    if _shouldIncludeSet opt then
      match _characterSetBuilder stream fuel opt dflt st with
      | .error e => .error e
      | .ok none => .ok none
      | .ok (some ((used, g), st')) => .ok (some ((charset ++ used, guaranteed ++ [g]), st'))
    else .ok (some ((charset, guaranteed), st))

/-- The filler loop `for (let i = 0; i < remainingLength; i++)
randomChars.push(charset[random.next(charset.length)])`, producing the pushed
characters in order. -/
def randomCharsLoop (stream : Nat → Nat) (fuel : Nat) (charset : String) :
    Nat → GenState → Except DrawError (Option (List Char × GenState))
  | 0, st => .ok (some ([], st))
  | k + 1, st =>
    match generatorNext stream (.one (.int charset.length) none) fuel st with
    | .error e => .error e
    | .ok none => .ok none
    | .ok (some (j, st')) =>
      match randomCharsLoop stream fuel charset k st' with
      | .error e => .error e
      | .ok none => .ok none
      | .ok (some (rest, st'')) =>
        .ok (some (charset.data.getD j.toNat 'A' :: rest, st''))

/-- `secureGenerate(numOrOptions)`: resolve options, compute the timestamp
string, run the two length checks, create one session for the whole call,
build the charset and guaranteed characters class by class, reject an empty
charset, draw the filler characters, shuffle guaranteed + filler with the
same session, and return the timestamp followed by the first
`length - timestampStr.length` characters of the shuffle.  `now` is the
clock value `new Date().getTime()` would observe. -/
def secureGenerate (stream : Nat → Nat) (now : Nat) (arg : GenArg) (fuel : Nat) :
    Except GenError (Option String) :=
  let r := resolveArg arg
  let timestampStr : String := timestampString r now
  if r.length < 1 then .error .lengthError
  else if timestampStr ≠ "" ∧ r.length ≤ (timestampStr.length : Int) then
    .error .timestampError
  else
    let built :=
      buildClass stream fuel r.specials DEFAULT_SPECIALS
        (buildClass stream fuel r.numbers DEFAULT_NUMBERS
          (buildClass stream fuel r.lowercase DEFAULT_LOWERCASE
            (buildClass stream fuel r.uppercase DEFAULT_UPPERCASE
              (.ok (some (("", []), initState))))))
    match built with
    | .error e => .error (.drawError e)
    | .ok none => .ok none
    | .ok (some ((charset, guaranteedChars), st1)) =>
      if charset = "" then .error .noCharTypes
      else
        let lengthToGenerate := r.length - (timestampStr.length : Int)
        let remainingLength := lengthToGenerate - (guaranteedChars.length : Int)
        match randomCharsLoop stream fuel charset remainingLength.toNat st1 with
        | .error e => .error (.drawError e)
        | .ok none => .ok none
        | .ok (some (randomChars, st2)) =>
          match secureShuffle stream (guaranteedChars ++ randomChars) (some st2) fuel with
          | none => .ok none
          | some (finalArr, _) =>
            .ok (some (timestampStr ++ String.mk (finalArr.take lengthToGenerate.toNat)))

/-! ### Derived definitions used to state the properties -/

/-- The rejection condition of the sampling loop, as a predicate on the
stream position `k`: the word is in the biased tail, or the candidate it
yields is in the ignore set. -/
def rejectsWord (stream : Nat → Nat) (min : Int) (range maxSafe : Nat)
    (ignoreSet : Option (List JSNum)) (k : Nat) : Bool :=
  decide (stream k ≥ maxSafe) || ignoreHas ignoreSet (jsAdd min (Int.ofNat (stream k % range)))

/-- The members of the normalized ignore set for a given ignore argument
(empty for an absent or rejected argument). -/
def normalizedElems : Option IgnoreInput → List JSNum
  | some (.jsSet l) => l
  | some (.jsIter l) => l.dedup
  | _ => []

/-- The `ignoreSet` value (`undefined` or a normalized set) the draw loop
sees for a given ignore argument. -/
def normIgOpt : Option IgnoreInput → Option (List JSNum)
  | none => none
  | some ig => some (normalizedElems (some ig))

/-- Whether the ignore argument is rejected with a `TypeError`: a bare string
or a non-iterable value. -/
def ignoreTypeBad : Option IgnoreInput → Bool
  | some (.jsStr _) => true
  | some .notIterable => true
  | _ => false

/-- Whether the bounds fail the first validation: a non-integer bound, or
`max <= min`. -/
def invalidBounds : JSNum → JSNum → Bool
  | .int mn, .int mx => decide (mx ≤ mn)
  | _, _ => true

/-- The requested range `max - min` (0 for non-integer bounds). -/
def jsRange : JSNum → JSNum → Nat
  | .int mn, .int mx => (mx - mn).toNat
  | _, _ => 0

/-- The number of excluded in-range integers the validation counts, lifted to
JS-number bounds (0 when a bound is not an integer, in which case the count
is never reached). -/
def jsCount (minJ maxJ : JSNum) (ig : Option IgnoreInput) : Nat :=
  match minJ, maxJ with
  | .int mn, .int mx => countExcludedInRange mn mx (normalizedElems ig)
  | _, _ => 0

/-- The index of the next entropy-stream word a session state will hand out. -/
def absPos (st : GenState) : Nat := st.pos + st.index - BUFFER_SIZE

/-- The session-state invariant: the cursor is within the buffer, and when
the buffer is live its contents are the block of stream words ending at
`pos`. -/
def GenInv (stream : Nat → Nat) (st : GenState) : Prop :=
  st.index ≤ BUFFER_SIZE ∧ BUFFER_SIZE ≤ st.pos + st.index ∧
    (st.index < BUFFER_SIZE →
      st.buffer = (List.range BUFFER_SIZE).map (fun i => stream (st.pos - BUFFER_SIZE + i)) ∧
        BUFFER_SIZE ≤ st.pos)

/-- The cumulative alphabet `secureGenerate` builds: the concatenation, in
class order, of the `used` alphabets of the enabled classes. -/
def enabledCharset (r : ResolvedOptions) : String :=
  (if _shouldIncludeSet r.uppercase then usedSet r.uppercase DEFAULT_UPPERCASE else "")
    ++ (if _shouldIncludeSet r.lowercase then usedSet r.lowercase DEFAULT_LOWERCASE else "")
    ++ (if _shouldIncludeSet r.numbers then usedSet r.numbers DEFAULT_NUMBERS else "")
    ++ (if _shouldIncludeSet r.specials then usedSet r.specials DEFAULT_SPECIALS else "")

/-- The number of enabled character classes. -/
def numEnabled (r : ResolvedOptions) : Nat :=
  (if _shouldIncludeSet r.uppercase then 1 else 0)
    + (if _shouldIncludeSet r.lowercase then 1 else 0)
    + (if _shouldIncludeSet r.numbers then 1 else 0)
    + (if _shouldIncludeSet r.specials then 1 else 0)

/-- The class selectors of a resolved option set, paired with their default
alphabets, in the fixed class order. -/
def classesOf (r : ResolvedOptions) : List (ClassOpt × String) :=
  [(r.uppercase, DEFAULT_UPPERCASE), (r.lowercase, DEFAULT_LOWERCASE),
   (r.numbers, DEFAULT_NUMBERS), (r.specials, DEFAULT_SPECIALS)]

/-- The options of the spec's custom-numbers end-to-end scenario:
`{length: 6, uppercase: false, lowercase: false, specials: false, numbers: "13579"}`. -/
def customNumbersOpts : SecureGenerateOptions :=
  { length := some 6, uppercase := some (.flag false), lowercase := some (.flag false),
    specials := some (.flag false), numbers := some (.custom "13579") }

/-- Options disabling every class through an empty custom alphabet. -/
def allEmptyStringOpts : SecureGenerateOptions :=
  { uppercase := some (.custom ""), lowercase := some (.custom ""),
    numbers := some (.custom ""), specials := some (.custom "") }

/-- Options with a zero length and an enabled timestamp (whose base-36
encoding, "255r", has length 4). -/
def tsZeroLenOpts : SecureGenerateOptions :=
  { length := some 0, timestamp := some (.explicitDate 99999) }

/-! ## Lemmas about the sampling loops -/

theorem roundNatToDouble_of_le (m : Nat) (h : m ≤ 2 ^ 53) : roundNatToDouble m = m := by
  rw [roundNatToDouble, if_pos h]

theorem roundToDouble_of_natAbs_le (n : Int) (h : n.natAbs ≤ 2 ^ 53) :
    roundToDouble n = n := by
  rw [roundToDouble]
  by_cases hn : n < 0
  · rw [if_pos hn, roundNatToDouble_of_le _ h]
    omega
  · rw [if_neg hn, roundNatToDouble_of_le _ (by omega)]
    omega

theorem jsAdd_exact (a b : Int) (h : (a + b).natAbs ≤ 2 ^ 53) : jsAdd a b = a + b :=
  roundToDouble_of_natAbs_le _ h

theorem sampleLoopOneShot_spec (stream : Nat → Nat) (min : Int) (range maxSafe : Nat)
    (ig : Option (List JSNum)) :
    ∀ fuel pos v pos',
      sampleLoopOneShot stream min range maxSafe ig pos fuel = some (v, pos') →
      ∃ k, pos ≤ k ∧ k < pos + fuel ∧
        rejectsWord stream min range maxSafe ig k = false ∧
        (∀ m, pos ≤ m → m < k → rejectsWord stream min range maxSafe ig m = true) ∧
        v = jsAdd min (Int.ofNat (stream k % range)) ∧ pos' = k + 1 := by
  intro fuel
  induction fuel with
  | zero => intro pos v pos' h; simp [sampleLoopOneShot] at h
  | succ n ih =>
    intro pos v pos' h
    rw [sampleLoopOneShot] at h
    by_cases hc : rejectsWord stream min range maxSafe ig pos = true
    · rw [if_pos (by simpa [rejectsWord] using hc)] at h
      obtain ⟨k, hk1, hk2, hk3, hk4, hk5, hk6⟩ := ih (pos + 1) v pos' h
      refine ⟨k, by omega, by omega, hk3, ?_, hk5, hk6⟩
      intro m hm1 hm2
      rcases Nat.eq_or_lt_of_le hm1 with rfl | hlt
      · exact hc
      · exact hk4 m hlt hm2
    · rw [if_neg (by simpa [rejectsWord] using hc)] at h
      obtain ⟨rfl, rfl⟩ := Prod.mk.injEq .. ▸ Option.some.injEq .. ▸ h
      exact ⟨pos, le_refl _, by omega, by simpa using hc, by omega, rfl, rfl⟩

theorem sampleLoopGen_mem (stream : Nat → Nat) (min : Int) (range maxSafe : Nat)
    (ig : Option (List JSNum)) :
    ∀ fuel st v st',
      sampleLoopGen stream min range maxSafe ig fuel st = some (v, st') →
      (∃ w, w < maxSafe ∧ v = jsAdd min (Int.ofNat (w % range))) ∧
        ignoreHas ig v = false := by
  intro fuel
  induction fuel with
  | zero => intro st v st' h; simp [sampleLoopGen] at h
  | succ n ih =>
    intro st v st' h
    rw [sampleLoopGen] at h
    split at h
    · exact ih _ v st' h
    · rename_i hcond
      obtain ⟨rfl, rfl⟩ := Prod.mk.injEq .. ▸ Option.some.injEq .. ▸ h
      simp only [Bool.or_eq_true, decide_eq_true_eq, not_or] at hcond
      push_neg at hcond
      exact ⟨⟨(takeWord stream st).fst, by omega, rfl⟩, by simpa using hcond.2⟩

/-! ## The validation normal form of both draw functions -/

theorem generatorNext_cases (stream : Nat → Nat) (mn mx : Int) (ig : Option IgnoreInput)
    (fuel : Nat) (st : GenState) :
    generatorNext stream (.two (.int mn) (.int mx) ig) fuel st =
      if mx ≤ mn then .error .invalidRange
      else if (mx - mn).toNat > TWO32 then .error .rangeTooLarge
      else if ignoreTypeBad ig then .error .invalidIgnoreType
      else if countExcludedInRange mn mx (normalizedElems ig) ≥ (mx - mn).toNat then
        .error .exhaustedRange
      else
        .ok (sampleLoopGen stream mn ((mx - mn).toNat)
          (TWO32 - TWO32 % (mx - mn).toNat) (normIgOpt ig) fuel st) := by
  by_cases h1 : mx ≤ mn
  · cases ig <;> simp [generatorNext, parseArgs, h1]
  · have hr : 0 < (mx - mn).toNat := by omega
    by_cases h2 : (mx - mn).toNat > TWO32
    · cases ig <;>
        simp [generatorNext, parseArgs, h1, h2]
    · match ig with
      | none =>
        have h3 : ¬ countExcludedInRange mn mx (normalizedElems none) ≥ (mx - mn).toNat := by
          simp [countExcludedInRange, normalizedElems]; omega
        simp [generatorNext, parseArgs, h1, h2, h3, ignoreTypeBad, normalizedElems,
          countExcludedInRange, exhaustedCheck, normIgOpt]
      | some (.jsSet l) =>
        by_cases h3 : countExcludedInRange mn mx l ≥ (mx - mn).toNat <;>
          simp [generatorNext, parseArgs, h1, h2, h3, ignoreTypeBad, normalizedElems,
            normalizeIgnore, exhaustedCheck, normIgOpt, Except.map]
      | some (.jsIter l) =>
        by_cases h3 : countExcludedInRange mn mx l.dedup ≥ (mx - mn).toNat <;>
          simp [generatorNext, parseArgs, h1, h2, h3, ignoreTypeBad, normalizedElems,
            normalizeIgnore, exhaustedCheck, normIgOpt, Except.map]
      | some (.jsStr s) =>
        simp [generatorNext, parseArgs, h1, h2, ignoreTypeBad, normalizeIgnore, Except.map]
      | some .notIterable =>
        simp [generatorNext, parseArgs, h1, h2, ignoreTypeBad, normalizeIgnore, Except.map]

theorem secureRandomNumber_cases (stream : Nat → Nat) (mn mx : Int) (ig : Option IgnoreInput)
    (fuel : Nat) :
    secureRandomNumber stream (.two (.int mn) (.int mx) ig) fuel =
      if mx ≤ mn then .error .invalidRange
      else if (mx - mn).toNat > TWO32 then .error .rangeTooLarge
      else if ignoreTypeBad ig then .error .invalidIgnoreType
      else if countExcludedInRange mn mx (normalizedElems ig) ≥ (mx - mn).toNat then
        .error .exhaustedRange
      else
        .ok ((sampleLoopOneShot stream mn ((mx - mn).toNat)
          (TWO32 - TWO32 % (mx - mn).toNat) (normIgOpt ig) 0 fuel).map Prod.fst) := by
  by_cases h1 : mx ≤ mn
  · cases ig <;> simp [secureRandomNumber, parseArgs, h1]
  · have hr : 0 < (mx - mn).toNat := by omega
    by_cases h2 : (mx - mn).toNat > TWO32
    · cases ig <;>
        simp [secureRandomNumber, parseArgs, h1, h2]
    · match ig with
      | none =>
        have h3 : ¬ countExcludedInRange mn mx (normalizedElems none) ≥ (mx - mn).toNat := by
          simp [countExcludedInRange, normalizedElems]; omega
        simp [secureRandomNumber, parseArgs, h1, h2, h3, ignoreTypeBad, normalizedElems,
          countExcludedInRange, exhaustedCheck, normIgOpt]
      | some (.jsSet l) =>
        by_cases h3 : countExcludedInRange mn mx l ≥ (mx - mn).toNat <;>
          simp [secureRandomNumber, parseArgs, h1, h2, h3, ignoreTypeBad, normalizedElems,
            normalizeIgnore, exhaustedCheck, normIgOpt, Except.map]
      | some (.jsIter l) =>
        by_cases h3 : countExcludedInRange mn mx l.dedup ≥ (mx - mn).toNat <;>
          simp [secureRandomNumber, parseArgs, h1, h2, h3, ignoreTypeBad, normalizedElems,
            normalizeIgnore, exhaustedCheck, normIgOpt, Except.map]
      | some (.jsStr s) =>
        simp [secureRandomNumber, parseArgs, h1, h2, ignoreTypeBad, normalizeIgnore, Except.map]
      | some .notIterable =>
        simp [secureRandomNumber, parseArgs, h1, h2, ignoreTypeBad, normalizeIgnore, Except.map]

theorem generatorNext_nonIntBounds (stream : Nat → Nat) (minJ maxJ : JSNum)
    (ig : Option IgnoreInput) (fuel : Nat) (st : GenState)
    (h : minJ.isInteger = false ∨ maxJ.isInteger = false) :
    generatorNext stream (.two minJ maxJ ig) fuel st = .error .invalidRange := by
  cases minJ <;> cases maxJ <;> simp_all [JSNum.isInteger, generatorNext, parseArgs]

theorem secureRandomNumber_nonIntBounds (stream : Nat → Nat) (minJ maxJ : JSNum)
    (ig : Option IgnoreInput) (fuel : Nat)
    (h : minJ.isInteger = false ∨ maxJ.isInteger = false) :
    secureRandomNumber stream (.two minJ maxJ ig) fuel = .error .invalidRange := by
  cases minJ <;> cases maxJ <;> simp_all [JSNum.isInteger, secureRandomNumber, parseArgs]

/-! ## The buffered session reads the same word sequence as one-shot mode -/

theorem initState_inv (stream : Nat → Nat) : GenInv stream initState := by
  refine ⟨le_refl _, by simp [initState], ?_⟩
  intro h
  simp [initState] at h

theorem absPos_initState : absPos initState = 0 := by
  simp [absPos, initState]

theorem takeWord_spec (stream : Nat → Nat) (st : GenState) (h : GenInv stream st) :
    (takeWord stream st).fst = stream (absPos st) ∧
      GenInv stream (takeWord stream st).snd ∧
      absPos (takeWord stream st).snd = absPos st + 1 := by
  obtain ⟨hle, hpos, hbuf⟩ := h
  by_cases hidx : st.index ≥ BUFFER_SIZE
  · have hidx' : st.index = BUFFER_SIZE := le_antisymm hle hidx
    have hB : 0 < BUFFER_SIZE := by simp [BUFFER_SIZE]
    have hget : ((List.range BUFFER_SIZE).map fun i => stream (st.pos + i)).getD 0 0
        = stream st.pos := by
      rw [List.getD_eq_getElem _ _ (by simpa using hB)]
      simp
    have heq : takeWord stream st =
        (stream st.pos,
          { buffer := (List.range BUFFER_SIZE).map fun i => stream (st.pos + i)
            index := 1, pos := st.pos + BUFFER_SIZE }) := by
      rw [takeWord, if_pos hidx]
      simp only [refillBuffer]
      rw [hget]
    rw [heq]
    refine ⟨?_, ⟨?_, ?_, ?_⟩, ?_⟩
    · show stream st.pos = stream (absPos st)
      have h9 : absPos st = st.pos := by simp only [absPos]; omega
      rw [h9]
    · show (1 : Nat) ≤ BUFFER_SIZE
      omega
    · show BUFFER_SIZE ≤ st.pos + BUFFER_SIZE + 1
      omega
    · intro hlt
      refine ⟨?_, ?_⟩
      · show ((List.range BUFFER_SIZE).map fun i => stream (st.pos + i)) =
          (List.range BUFFER_SIZE).map fun i => stream (st.pos + BUFFER_SIZE - BUFFER_SIZE + i)
        simp only [Nat.add_sub_cancel]
      · show BUFFER_SIZE ≤ st.pos + BUFFER_SIZE
        omega
    · show st.pos + BUFFER_SIZE + 1 - BUFFER_SIZE = absPos st + 1
      simp only [absPos]
      omega
  · push_neg at hidx
    obtain ⟨hbufeq, hposB⟩ := hbuf hidx
    have hget : st.buffer.getD st.index 0 = stream (st.pos - BUFFER_SIZE + st.index) := by
      rw [hbufeq, List.getD_eq_getElem _ _ (by simpa using hidx)]
      simp
    have heq : takeWord stream st =
        (stream (st.pos - BUFFER_SIZE + st.index), { st with index := st.index + 1 }) := by
      rw [takeWord, if_neg (by omega)]
      rw [hget]
    rw [heq]
    refine ⟨?_, ⟨?_, ?_, ?_⟩, ?_⟩
    · show stream (st.pos - BUFFER_SIZE + st.index) = stream (absPos st)
      have h9 : absPos st = st.pos - BUFFER_SIZE + st.index := by simp only [absPos]; omega
      rw [h9]
    · show st.index + 1 ≤ BUFFER_SIZE
      omega
    · show BUFFER_SIZE ≤ st.pos + (st.index + 1)
      omega
    · intro hlt
      have hlt' : st.index + 1 < BUFFER_SIZE := hlt
      exact ⟨hbufeq, hposB⟩
    · show st.pos + (st.index + 1) - BUFFER_SIZE = absPos st + 1
      simp only [absPos]
      omega

theorem sampleLoopGen_eq_oneShot (stream : Nat → Nat) (min : Int) (range maxSafe : Nat)
    (ig : Option (List JSNum)) :
    ∀ fuel st, GenInv stream st →
      (sampleLoopGen stream min range maxSafe ig fuel st).map Prod.fst =
        (sampleLoopOneShot stream min range maxSafe ig (absPos st) fuel).map Prod.fst := by
  intro fuel
  induction fuel with
  | zero => intro st _; simp [sampleLoopGen, sampleLoopOneShot]
  | succ n ih =>
    intro st hinv
    obtain ⟨hfst, hinv', habs⟩ := takeWord_spec stream st hinv
    rw [sampleLoopGen, sampleLoopOneShot]
    rw [hfst]
    split
    · rw [ih _ hinv', habs]
    · simp

theorem generatorNext_fresh_eq (stream : Nat → Nat) (args : NextArgs) (fuel : Nat) :
    (generatorNext stream args fuel initState).map (Option.map Prod.fst) =
      secureRandomNumber stream args fuel := by
  have main : ∀ (minJ maxJ : JSNum) (ig : Option IgnoreInput),
      (generatorNext stream (.two minJ maxJ ig) fuel initState).map (Option.map Prod.fst) =
        secureRandomNumber stream (.two minJ maxJ ig) fuel := by
    intro minJ maxJ ig
    match minJ, maxJ with
    | .int mn, .int mx =>
      rw [generatorNext_cases, secureRandomNumber_cases]
      split
      · rfl
      · split
        · rfl
        · split
          · rfl
          · split
            · rfl
            · simp only [Except.map]
              rw [← absPos_initState,
                ← sampleLoopGen_eq_oneShot stream mn _ _ _ fuel initState (initState_inv stream)]
    | .int mn, .nonInt =>
      rw [generatorNext_nonIntBounds stream (.int mn) .nonInt ig fuel initState (Or.inr rfl),
        secureRandomNumber_nonIntBounds stream (.int mn) .nonInt ig fuel (Or.inr rfl)]
      rfl
    | .nonInt, mx =>
      rw [generatorNext_nonIntBounds stream .nonInt mx ig fuel initState (Or.inl rfl),
        secureRandomNumber_nonIntBounds stream .nonInt mx ig fuel (Or.inl rfl)]
      rfl
  match args with
  | .one m ig => exact main (.int 0) m ig
  | .two mn mx ig => exact main mn mx ig

/-! ## Shuffle lemmas -/

theorem consSwap_perm (xs : List α) : ∀ (m : Nat) (b x : α), xs[m]? = some b →
    (b :: xs.set m x).Perm (x :: xs) := by
  induction xs with
  | nil => intro m b x h; simp at h
  | cons y t ih =>
    intro m b x h
    cases m with
    | zero =>
      simp at h
      subst h
      exact List.Perm.swap x y t
    | succ m =>
      simp at h
      have hset : (y :: t).set (m + 1) x = y :: t.set m x := rfl
      rw [hset]
      exact (List.Perm.swap y b (t.set m x)).trans
        (((ih m b x h).cons y).trans (List.Perm.swap x y t))

theorem set_set_swap_perm : ∀ (l : List α) (i j : Nat) (a b : α),
    l[i]? = some a → l[j]? = some b → ((l.set i b).set j a).Perm l := by
  intro l
  induction l with
  | nil => intro i j a b h1 _; simp at h1
  | cons c t ih =>
    intro i j a b h1 h2
    cases i with
    | zero =>
      cases j with
      | zero =>
        simp at h1 h2
        subst h1
        subst h2
        simp
      | succ m =>
        simp at h1 h2
        subst h1
        have hset : ((c :: t).set 0 b).set (m + 1) c = b :: t.set m c := rfl
        rw [hset]
        exact consSwap_perm t m b c h2
    | succ m =>
      cases j with
      | zero =>
        simp at h1 h2
        subst h2
        have hset : ((c :: t).set (m + 1) c).set 0 a = a :: t.set m c := rfl
        rw [hset]
        exact consSwap_perm t m a c h1
      | succ k =>
        simp at h1 h2
        have hset : ((c :: t).set (m + 1) b).set (k + 1) a = c :: (t.set m b).set k a := rfl
        rw [hset]
        exact (ih m k a b h1 h2).cons c

theorem swapAt_perm (l : List α) (i j : Nat) : (swapAt l i j).Perm l := by
  unfold swapAt
  split
  · rename_i a b h1 h2
    rw [List.get?_eq_getElem?] at h1 h2
    exact set_set_swap_perm l i j a b h1 h2
  · exact List.Perm.refl l

theorem shuffleLoop_perm (stream : Nat → Nat) (fuel : Nat) :
    ∀ (k : Nat) (arr : List α) (st : GenState) (out : List α) (st' : GenState),
      shuffleLoop stream fuel arr k st = some (out, st') → out.Perm arr := by
  intro k
  induction k with
  | zero =>
    intro arr st out st' h
    rw [shuffleLoop] at h
    obtain ⟨rfl, rfl⟩ := Prod.mk.injEq .. ▸ Option.some.injEq .. ▸ h
    exact List.Perm.refl arr
  | succ n ih =>
    intro arr st out st' h
    rw [shuffleLoop] at h
    split at h
    · rename_i j st'' heq
      exact (ih _ _ _ _ h).trans (swapAt_perm arr (n + 1) j.toNat)
    · exact absurd h (by simp)

theorem secureShuffle_perm (stream : Nat → Nat) (arr : List α) (genSt : Option GenState)
    (fuel : Nat) (out : List α) (st' : GenState)
    (h : secureShuffle stream arr genSt fuel = some (out, st')) : out.Perm arr :=
  shuffleLoop_perm stream fuel (arr.length - 1) arr (genSt.getD initState) out st' h

theorem secureShuffle_short (stream : Nat → Nat) (arr : List α) (genSt : Option GenState)
    (fuel : Nat) (hlen : arr.length ≤ 1) :
    secureShuffle stream arr genSt fuel = some (arr, genSt.getD initState) := by
  have h0 : arr.length - 1 = 0 := by omega
  rw [secureShuffle, h0, shuffleLoop]

/-! ## Comparator lemmas -/

theorem nat_or_eq_zero (m n : Nat) : m ||| n = 0 ↔ m = 0 ∧ n = 0 := by
  constructor
  · intro h
    refine ⟨Nat.eq_of_testBit_eq fun i => ?_, Nat.eq_of_testBit_eq fun i => ?_⟩ <;>
      · have := congrArg (Nat.testBit · i) h
        simp [Nat.testBit_or] at this
        simp [this]
  · rintro ⟨rfl, rfl⟩; rfl

theorem tail_getD (b : List Nat) (i d : Nat) : b.tail.getD i d = b.getD (i + 1) d := by
  cases b <;> rfl

theorem headD_getD (b : List Nat) (d : Nat) : b.headD d = b.getD 0 d := by
  cases b <;> rfl

theorem mismatchFold_eq_zero : ∀ (a b : List Nat) (acc : Nat),
    mismatchFold a b acc = 0 ↔
      acc = 0 ∧ ∀ i, i < a.length → a.getD i 0 = b.getD i 0 := by
  intro a
  induction a with
  | nil => intro b acc; simp [mismatchFold]
  | cons x xs ih =>
    intro b acc
    rw [mismatchFold, ih]
    constructor
    · rintro ⟨hacc, hrest⟩
      rw [nat_or_eq_zero] at hacc
      obtain ⟨hacc0, hx⟩ := hacc
      rw [Nat.xor_eq_zero] at hx
      refine ⟨hacc0, ?_⟩
      intro i hi
      cases i with
      | zero =>
        rw [List.getD_cons_zero, ← headD_getD]
        exact hx
      | succ i =>
        have hr := hrest i (by simpa using hi)
        rw [tail_getD] at hr
        rw [List.getD_cons_succ]
        exact hr
    · rintro ⟨hacc0, hall⟩
      have hx : x = b.getD 0 0 := by
        have := hall 0 (by simp)
        rwa [List.getD_cons_zero] at this
      refine ⟨?_, ?_⟩
      · rw [nat_or_eq_zero]
        refine ⟨hacc0, ?_⟩
        rw [Nat.xor_eq_zero, headD_getD]
        exact hx
      · intro i hi
        have := hall (i + 1) (by simpa using hi)
        rw [List.getD_cons_succ] at this
        rw [tail_getD]
        exact this

theorem getD_ext (a b : List Nat) (hlen : a.length = b.length)
    (h : ∀ i, i < a.length → a.getD i 0 = b.getD i 0) : a = b := by
  refine List.ext_getElem hlen fun i h1 h2 => ?_
  have := h i h1
  rwa [List.getD_eq_getElem _ _ h1, List.getD_eq_getElem _ _ h2] at this

theorem mismatchFold_lengths_eq_zero_iff (A B : List Nat) :
    mismatchFold A B (A.length ^^^ B.length) = 0 ↔ B = A := by
  rw [mismatchFold_eq_zero]
  constructor
  · rintro ⟨hlen, hall⟩
    rw [Nat.xor_eq_zero] at hlen
    exact (getD_ext A B hlen hall).symm
  · rintro rfl
    exact ⟨by simp, fun i _ => rfl⟩

theorem mismatchFold_one_ne_zero (A B : List Nat) : mismatchFold A B 1 ≠ 0 := by
  intro hzero
  rw [mismatchFold_eq_zero] at hzero
  exact one_ne_zero hzero.1

theorem secureCompare_eq_some (ref b : CompareInput) (h : inputLength0 ref = false) :
    secureCompare (some ref) (some b) =
      .ok (mismatchFold (_toUint8Array ref) (_toUint8Array b)
        ((_toUint8Array ref).length ^^^ (_toUint8Array b).length) == 0) := by
  simp [secureCompare, h]

theorem secureCompare_eq_none (ref : CompareInput) (h : inputLength0 ref = false) :
    secureCompare (some ref) none =
      .ok (mismatchFold (_toUint8Array ref) [] 1 == 0) := by
  simp [secureCompare, h]

theorem secureCompare_some_iff (ref : CompareInput) (inc : Option CompareInput)
    (h : inputLength0 ref = false) :
    secureCompare (some ref) inc = .ok true ↔
      ∃ b, inc = some b ∧ _toUint8Array b = _toUint8Array ref := by
  cases inc with
  | none =>
    rw [secureCompare_eq_none ref h]
    simp [mismatchFold_one_ne_zero]
  | some b =>
    rw [secureCompare_eq_some ref b h]
    have key := mismatchFold_lengths_eq_zero_iff (_toUint8Array ref) (_toUint8Array b)
    simp only [Except.ok.injEq, beq_iff_eq]
    constructor
    · intro hok
      exact ⟨b, rfl, key.mp hok⟩
    · rintro ⟨b', hb', heq⟩
      obtain rfl : b = b' := by injection hb'
      exact key.mpr heq

theorem secureCompare_none_false (ref : CompareInput) (h : inputLength0 ref = false) :
    secureCompare (some ref) none = .ok false := by
  rw [secureCompare_eq_none ref h]
  have hne := mismatchFold_one_ne_zero (_toUint8Array ref) []
  simp [hne]

theorem secureCompare_no_throw (ref : CompareInput) (inc : Option CompareInput)
    (h : inputLength0 ref = false) :
    ∃ r, secureCompare (some ref) inc = .ok r := by
  cases inc with
  | none => exact ⟨_, secureCompare_eq_none ref h⟩
  | some b => exact ⟨_, secureCompare_eq_some ref b h⟩

theorem mismatchFoldSteps_snd : ∀ (a b : List Nat) (acc : Nat),
    (mismatchFoldSteps a b acc).snd = a.length := by
  intro a
  induction a with
  | nil => intro b acc; rfl
  | cons x xs ih => intro b acc; simp [mismatchFoldSteps, ih]

theorem mismatchFoldSteps_fst : ∀ (a b : List Nat) (acc : Nat),
    (mismatchFoldSteps a b acc).fst = mismatchFold a b acc := by
  intro a
  induction a with
  | nil => intro b acc; rfl
  | cons x xs ih => intro b acc; simp [mismatchFoldSteps, mismatchFold, ih]

theorem secureCompareSteps_agree (ref inc : Option CompareInput) :
    (secureCompareSteps ref inc).map Prod.fst = secureCompare ref inc := by
  cases ref with
  | none => rfl
  | some r =>
    by_cases h : inputLength0 r = true
    · simp [secureCompareSteps, secureCompare, h, Except.map]
    · simp only [Bool.not_eq_true] at h
      cases inc <;>
        simp [secureCompareSteps, secureCompare, h, Except.map, mismatchFoldSteps_fst]

theorem secureCompareSteps_count (ref : CompareInput) (inc : Option CompareInput)
    (h : inputLength0 ref = false) :
    ∃ bl, secureCompareSteps (some ref) inc = .ok (bl, (_toUint8Array ref).length) := by
  cases inc <;>
    · simp only [secureCompareSteps, h, Bool.false_eq_true, if_false]
      exact ⟨_, by rw [mismatchFoldSteps_snd]⟩

/-! ## Claim theorems for the comparator -/

/-- C3: for every non-empty reference and every incoming operand,
`secureCompare` returns `true` exactly when the incoming operand is present
and its byte encoding equals the reference's byte encoding (so equal content
is recognized across text/byte representations); an absent incoming operand
yields `false`, and no error is ever raised for a non-empty reference. -/
theorem claim_C3 (ref : CompareInput) (inc : Option CompareInput)
    (h : inputLength0 ref = false) :
    (secureCompare (some ref) inc = .ok true ↔
      ∃ b, inc = some b ∧ _toUint8Array b = _toUint8Array ref) ∧
    secureCompare (some ref) none = .ok false ∧
    ∃ r, secureCompare (some ref) inc = .ok r :=
  ⟨secureCompare_some_iff ref inc h, secureCompare_none_false ref h,
   secureCompare_no_throw ref inc h⟩

/-- Witness for C3 at the concrete input `compare("abc", bytesOf("abc"))`. -/
theorem claim_C3_witness :
    inputLength0 (CompareInput.text "abc") = false ∧
    ((secureCompare (some (.text "abc")) (some (.bytes [97, 98, 99])) = .ok true ↔
      ∃ b, (some (CompareInput.bytes [97, 98, 99])) = some b ∧
        _toUint8Array b = _toUint8Array (.text "abc")) ∧
     secureCompare (some (.text "abc")) none = .ok false ∧
     ∃ r, secureCompare (some (.text "abc")) (some (.bytes [97, 98, 99])) = .ok r) :=
  ⟨by decide, claim_C3 (.text "abc") (some (.bytes [97, 98, 99])) (by decide)⟩

/-- C8: `secureCompare` fails with the reference-undefined error exactly when
the reference operand is absent or empty, and for every non-empty reference
it returns a boolean (never an error), whatever the incoming operand is. -/
theorem claim_C8 (ref inc : Option CompareInput) :
    (secureCompare ref inc = .error .referenceUndefined ↔
      ref = none ∨ ∃ r, ref = some r ∧ inputLength0 r = true) ∧
    (∀ r, ref = some r → inputLength0 r = false →
      ∃ b, secureCompare ref inc = .ok b) := by
  constructor
  · cases ref with
    | none => simp [secureCompare]
    | some r =>
      by_cases h : inputLength0 r = true
      · simp [secureCompare, h]
      · have h' : inputLength0 r = false := by simpa using h
        obtain ⟨b, hb⟩ := secureCompare_no_throw r inc h'
        rw [hb]
        simp [h']
  · intro r href h'
    subst href
    exact secureCompare_no_throw r inc h'

/-- C9: the instrumented comparator agrees with `secureCompare`, its
comparison loop performs exactly as many iterations as the reference's byte
encoding is long, and the iteration count is the same for any two incoming
operands — the work done is independent of the incoming operand's content,
length or presence. -/
theorem claim_C9 (ref : CompareInput) (inc inc1 inc2 : Option CompareInput)
    (h : inputLength0 ref = false) :
    (secureCompareSteps (some ref) inc).map Prod.fst = secureCompare (some ref) inc ∧
    (∃ b1, secureCompareSteps (some ref) inc1 = .ok (b1, (_toUint8Array ref).length)) ∧
    (∀ n1 n2 b1 b2, secureCompareSteps (some ref) inc1 = .ok (b1, n1) →
      secureCompareSteps (some ref) inc2 = .ok (b2, n2) → n1 = n2) := by
  refine ⟨secureCompareSteps_agree _ _, secureCompareSteps_count ref inc1 h, ?_⟩
  intro n1 n2 b1 b2 h1 h2
  obtain ⟨c1, hc1⟩ := secureCompareSteps_count ref inc1 h
  obtain ⟨c2, hc2⟩ := secureCompareSteps_count ref inc2 h
  rw [h1] at hc1
  rw [h2] at hc2
  have e1 : n1 = (_toUint8Array ref).length := by
    have := Except.ok.injEq .. ▸ hc1
    exact (Prod.mk.injEq .. ▸ this).2
  have e2 : n2 = (_toUint8Array ref).length := by
    have := Except.ok.injEq .. ▸ hc2
    exact (Prod.mk.injEq .. ▸ this).2
  rw [e1, e2]

/-- Witness for C9 at concrete operands of different shapes and lengths. -/
theorem claim_C9_witness :
    inputLength0 (CompareInput.text "abcd") = false ∧
    ((secureCompareSteps (some (.text "abcd")) (some (.text "zz"))).map Prod.fst =
        secureCompare (some (.text "abcd")) (some (.text "zz")) ∧
     (∃ b1, secureCompareSteps (some (.text "abcd")) none =
        .ok (b1, (_toUint8Array (.text "abcd")).length)) ∧
     (∀ n1 n2 b1 b2, secureCompareSteps (some (.text "abcd")) none = .ok (b1, n1) →
        secureCompareSteps (some (.text "abcd")) (some (.bytes [1, 2, 3, 4, 5, 6, 7])) =
          .ok (b2, n2) → n1 = n2)) :=
  ⟨by decide,
   claim_C9 (.text "abcd") (some (.text "zz")) none (some (.bytes [1, 2, 3, 4, 5, 6, 7]))
     (by decide)⟩

/-! ## Claim theorems for the bounded generator -/

/-- C1, amended.  The claim as stated is refuted by the counterexample
below: for bounds beyond the safe-integer range,
`min + (randomValue % range)` is an IEEE-754 double addition whose rounding
can push the result outside `[min, max)`.  Amended by additionally requiring
both bounds to lie in the safe-integer range `[-2^53, 2^53]` (where the
addition is exact): then no error is raised; every value the one-shot draw
returns lies in `[min, max)`, is not a member of the (normalized) exclusion
set, and is `min + (raw mod range)` for the first stream word `raw` that is
below `safeLimit` and whose candidate is not excluded; the session draw from
a fresh generator returns a value with the same range and exclusion bounds,
again characterized by the first accepted stream word; and `draw(0, 1)`
always returns 0. -/
theorem claim_C1 (stream : Nat → Nat) (mn mx : Int) (rawIg : Option IgnoreInput) (fuel : Nat)
    (hstream : ∀ k, stream k < TWO32)
    (hlt : mn < mx) (hsize : mx - mn ≤ (TWO32 : Int))
    (hlo : -(2 ^ 53) ≤ mn) (hhi : mx ≤ 2 ^ 53)
    (hgood : ignoreTypeBad rawIg = false)
    (hcount : countExcludedInRange mn mx (normalizedElems rawIg) < (mx - mn).toNat) :
    (∃ o, secureRandomNumber stream (.two (.int mn) (.int mx) rawIg) fuel = .ok o) ∧
    (∀ v, secureRandomNumber stream (.two (.int mn) (.int mx) rawIg) fuel = .ok (some v) →
      mn ≤ v ∧ v < mx ∧ JSNum.int v ∉ normalizedElems rawIg ∧
      ∃ k, k < fuel ∧
        rejectsWord stream mn (mx - mn).toNat (TWO32 - TWO32 % (mx - mn).toNat)
          (normIgOpt rawIg) k = false ∧
        (∀ m, m < k → rejectsWord stream mn (mx - mn).toNat (TWO32 - TWO32 % (mx - mn).toNat)
          (normIgOpt rawIg) m = true) ∧
        v = mn + Int.ofNat (stream k % (mx - mn).toNat)) ∧
    (∀ v st', generatorNext stream (.two (.int mn) (.int mx) rawIg) fuel initState =
        .ok (some (v, st')) →
      mn ≤ v ∧ v < mx ∧ JSNum.int v ∉ normalizedElems rawIg ∧
      ∃ k, k < fuel ∧
        rejectsWord stream mn (mx - mn).toNat (TWO32 - TWO32 % (mx - mn).toNat)
          (normIgOpt rawIg) k = false ∧
        (∀ m, m < k → rejectsWord stream mn (mx - mn).toNat (TWO32 - TWO32 % (mx - mn).toNat)
          (normIgOpt rawIg) m = true) ∧
        v = mn + Int.ofNat (stream k % (mx - mn).toNat)) ∧
    (1 ≤ fuel → secureRandomNumber stream (.two (.int 0) (.int 1) none) fuel = .ok (some 0)) := by
  have h1 : ¬ mx ≤ mn := by omega
  have hr : 0 < (mx - mn).toNat := by omega
  have h2 : ¬ (mx - mn).toNat > TWO32 := by omega
  have h3 : ¬ ignoreTypeBad rawIg = true := by simp [hgood]
  have h4 : ¬ countExcludedInRange mn mx (normalizedElems rawIg) ≥ (mx - mn).toNat := by omega
  have h53 : (2 : Nat) ^ 53 = 9007199254740992 := by norm_num
  have h53i : (2 : Int) ^ 53 = 9007199254740992 := by norm_num
  have hexact : ∀ x : Nat, x < (mx - mn).toNat →
      jsAdd mn (Int.ofNat x) = mn + Int.ofNat x := by
    intro x hx
    apply jsAdd_exact
    simp only [Int.ofNat_eq_natCast]
    omega
  have hres := secureRandomNumber_cases stream mn mx rawIg fuel
  rw [if_neg h1, if_neg h2, if_neg h3, if_neg h4] at hres
  have hnotmem : ∀ v : Int, ignoreHas (normIgOpt rawIg) v = false →
      JSNum.int v ∉ normalizedElems rawIg := by
    intro v hv hmem
    match rawIg with
    | none => simp [normalizedElems] at hmem
    | some ig =>
      simp only [ignoreHas, normIgOpt] at hv
      simp at hv
      exact hv hmem
  have main : ∀ v, (sampleLoopOneShot stream mn ((mx - mn).toNat)
      (TWO32 - TWO32 % (mx - mn).toNat) (normIgOpt rawIg) 0 fuel).map Prod.fst = some v →
      mn ≤ v ∧ v < mx ∧ JSNum.int v ∉ normalizedElems rawIg ∧
      ∃ k, k < fuel ∧
        rejectsWord stream mn (mx - mn).toNat (TWO32 - TWO32 % (mx - mn).toNat)
          (normIgOpt rawIg) k = false ∧
        (∀ m, m < k → rejectsWord stream mn (mx - mn).toNat (TWO32 - TWO32 % (mx - mn).toNat)
          (normIgOpt rawIg) m = true) ∧
        v = mn + Int.ofNat (stream k % (mx - mn).toNat) := by
    intro v hmap
    obtain ⟨p, hp, hfst⟩ := Option.map_eq_some'.mp hmap
    obtain ⟨pv, ppos⟩ := p
    have hfst' : pv = v := hfst
    obtain ⟨k, hk0, hkfuel, hkacc, hkmin, hkval, hpos⟩ :=
      sampleLoopOneShot_spec stream mn _ _ _ fuel 0 pv ppos hp
    rw [hfst'] at hkval
    have hnothit : ignoreHas (normIgOpt rawIg) v = false := by
      rw [rejectsWord] at hkacc
      simp only [Bool.or_eq_false_iff] at hkacc
      rw [hkval]
      exact hkacc.2
    have hmod := Nat.mod_lt (stream k) hr
    have hkval' : v = mn + Int.ofNat (stream k % (mx - mn).toNat) := by
      rw [hkval, hexact _ hmod]
    refine ⟨?_, ?_, hnotmem v hnothit, k, by omega, hkacc, fun m hm => hkmin m (by omega) hm,
      hkval'⟩
    · rw [hkval']; simp only [Int.ofNat_eq_natCast]; omega
    · rw [hkval']; simp only [Int.ofNat_eq_natCast]; omega
  refine ⟨⟨_, hres⟩, ?_, ?_, ?_⟩
  · intro v hv
    rw [hres] at hv
    exact main v (by injection hv)
  · intro v st' hv
    have hres' := generatorNext_cases stream mn mx rawIg fuel initState
    rw [if_neg h1, if_neg h2, if_neg h3, if_neg h4] at hres'
    rw [hres'] at hv
    have hgen : sampleLoopGen stream mn ((mx - mn).toNat)
        (TWO32 - TWO32 % (mx - mn).toNat) (normIgOpt rawIg) fuel initState = some (v, st') := by
      injection hv
    have hmapg : (sampleLoopGen stream mn ((mx - mn).toNat)
        (TWO32 - TWO32 % (mx - mn).toNat) (normIgOpt rawIg) fuel initState).map Prod.fst =
          some v := by
      rw [hgen]
      rfl
    rw [sampleLoopGen_eq_oneShot stream mn _ _ _ fuel initState (initState_inv stream),
      absPos_initState] at hmapg
    exact main v hmapg
  · intro hfuel
    have h1' : ¬ (1 : Int) ≤ 0 := by omega
    have hone : ((1 : Int) - 0).toNat = 1 := by decide
    have h2' : ¬ ((1 : Int) - 0).toNat > TWO32 := by decide
    have h3' : ¬ ignoreTypeBad none = true := by decide
    have h4' : ¬ countExcludedInRange 0 1 (normalizedElems none) ≥ ((1 : Int) - 0).toNat := by
      decide
    have hres1 := secureRandomNumber_cases stream 0 1 none fuel
    rw [if_neg h1', if_neg h2', if_neg h3', if_neg h4'] at hres1
    rw [hres1]
    obtain ⟨f, rfl⟩ : ∃ f, fuel = f + 1 := ⟨fuel - 1, by omega⟩
    have h5 : ¬ stream 0 ≥ TWO32 - TWO32 % ((1 : Int) - 0).toNat := by
      rw [hone, Nat.mod_one]
      have := hstream 0
      omega
    rw [sampleLoopOneShot]
    rw [if_neg (by
      simp [ignoreHas, normIgOpt, Nat.mod_one, hone]
      have := hstream 0
      omega)]
    have hz : jsAdd 0 0 = 0 := rfl
    simp [hone, hz]

/-- Witness for C1: stream `k ↦ k % 2`, range `[5, 7)`, excluding 5; the
first word (0) is rejected because its candidate 5 is excluded, the second
word (1) yields 6. -/
theorem claim_C1_witness :
    ((∃ o, secureRandomNumber (fun k => k % 2)
        (.two (.int 5) (.int 7) (some (.jsIter [.int 5]))) 2 = .ok o) ∧
     (∀ v, secureRandomNumber (fun k => k % 2)
        (.two (.int 5) (.int 7) (some (.jsIter [.int 5]))) 2 = .ok (some v) →
       5 ≤ v ∧ v < 7 ∧ JSNum.int v ∉ normalizedElems (some (.jsIter [.int 5])) ∧
       ∃ k, k < 2 ∧
         rejectsWord (fun k => k % 2) 5 ((7 - 5 : Int)).toNat
           (TWO32 - TWO32 % ((7 - 5 : Int)).toNat)
           (normIgOpt (some (.jsIter [.int 5]))) k = false ∧
         (∀ m, m < k → rejectsWord (fun k => k % 2) 5 ((7 - 5 : Int)).toNat
           (TWO32 - TWO32 % ((7 - 5 : Int)).toNat)
           (normIgOpt (some (.jsIter [.int 5]))) m = true) ∧
         v = 5 + Int.ofNat ((fun k => k % 2) k % ((7 - 5 : Int)).toNat)) ∧
     (∀ v st', generatorNext (fun k => k % 2)
        (.two (.int 5) (.int 7) (some (.jsIter [.int 5]))) 2 initState = .ok (some (v, st')) →
       5 ≤ v ∧ v < 7 ∧ JSNum.int v ∉ normalizedElems (some (.jsIter [.int 5])) ∧
       ∃ k, k < 2 ∧
         rejectsWord (fun k => k % 2) 5 ((7 - 5 : Int)).toNat
           (TWO32 - TWO32 % ((7 - 5 : Int)).toNat)
           (normIgOpt (some (.jsIter [.int 5]))) k = false ∧
         (∀ m, m < k → rejectsWord (fun k => k % 2) 5 ((7 - 5 : Int)).toNat
           (TWO32 - TWO32 % ((7 - 5 : Int)).toNat)
           (normIgOpt (some (.jsIter [.int 5]))) m = true) ∧
         v = 5 + Int.ofNat ((fun k => k % 2) k % ((7 - 5 : Int)).toNat)) ∧
     (1 ≤ 2 → secureRandomNumber (fun k => k % 2) (.two (.int 0) (.int 1) none) 2 =
        .ok (some 0))) :=
  claim_C1 (fun k => k % 2) 5 7 (some (.jsIter [.int 5])) 2
    (fun k => Nat.lt_of_lt_of_le (Nat.mod_lt k (by decide)) (by decide))
    (by decide) (by decide) (by decide) (by decide) (by decide) (by decide)

/-- Counterexample to C1 as stated: with `min = 2^60` and `max = 2^60 + 256`
(integer bounds with range `256 ≤ 2^32` and no exclusions, inside the
claim's quantification), `safeLimit = 2^32` so the stream word 129 is
accepted, but the double addition `min + (129 % 256)` rounds up (the spacing
of representable doubles at `2^60` is 256) to `2^60 + 256 = max`: the draw
returns `max` itself, outside `[min, max)` and different from the exact
`min + (raw mod range) = 2^60 + 129`. -/
theorem claim_C1_counterexample :
    secureRandomNumber (fun _ => 129)
        (.two (.int (2 ^ 60)) (.int (2 ^ 60 + 256)) none) 1 =
      .ok (some (2 ^ 60 + 256)) ∧
    ¬ ((2 ^ 60 + 256 : Int) < 2 ^ 60 + 256) ∧
    (2 ^ 60 + 256 : Int) ≠ 2 ^ 60 + Int.ofNat (129 % 256) :=
  ⟨rfl, by decide, by decide⟩

theorem sampleLoopOneShot_congr (stream : Nat → Nat) (mn : Int) (range maxSafe : Nat)
    (ig1 ig2 : Option (List JSNum)) (hig : ∀ c, ignoreHas ig1 c = ignoreHas ig2 c) :
    ∀ fuel pos, sampleLoopOneShot stream mn range maxSafe ig1 pos fuel =
      sampleLoopOneShot stream mn range maxSafe ig2 pos fuel := by
  intro fuel
  induction fuel with
  | zero => intro pos; rfl
  | succ n ih =>
    intro pos
    rw [sampleLoopOneShot, sampleLoopOneShot, hig]
    split
    · exact ih (pos + 1)
    · rfl

theorem sampleLoopGen_congr (stream : Nat → Nat) (mn : Int) (range maxSafe : Nat)
    (ig1 ig2 : Option (List JSNum)) (hig : ∀ c, ignoreHas ig1 c = ignoreHas ig2 c) :
    ∀ fuel st, sampleLoopGen stream mn range maxSafe ig1 fuel st =
      sampleLoopGen stream mn range maxSafe ig2 fuel st := by
  intro fuel
  induction fuel with
  | zero => intro st; rfl
  | succ n ih =>
    intro st
    rw [sampleLoopGen, sampleLoopGen, hig]
    split
    · exact ih _
    · rfl

theorem nonInt_member_count (mn mx : Int) (l : List JSNum) :
    countExcludedInRange mn mx (normalizedElems (some (.jsIter (JSNum.nonInt :: l)))) =
      countExcludedInRange mn mx (normalizedElems (some (.jsIter l))) := by
  simp only [normalizedElems]
  by_cases hm : JSNum.nonInt ∈ l
  · rw [List.dedup_cons_of_mem hm]
  · rw [List.dedup_cons_of_not_mem hm]
    simp [countExcludedInRange, List.countP_cons]

theorem nonInt_member_has (l : List JSNum) (c : Int) :
    ignoreHas (normIgOpt (some (.jsIter (JSNum.nonInt :: l)))) c =
      ignoreHas (normIgOpt (some (.jsIter l))) c := by
  simp only [ignoreHas, normIgOpt, normalizedElems]
  by_cases hm : JSNum.nonInt ∈ l
  · rw [List.dedup_cons_of_mem hm]
  · rw [List.dedup_cons_of_not_mem hm]
    simp

theorem nonInt_member_invariance (stream : Nat → Nat) (minJ maxJ : JSNum) (l : List JSNum)
    (fuel : Nat) (st : GenState) :
    secureRandomNumber stream (.two minJ maxJ (some (.jsIter (JSNum.nonInt :: l)))) fuel =
      secureRandomNumber stream (.two minJ maxJ (some (.jsIter l))) fuel ∧
    generatorNext stream (.two minJ maxJ (some (.jsIter (JSNum.nonInt :: l)))) fuel st =
      generatorNext stream (.two minJ maxJ (some (.jsIter l))) fuel st := by
  match minJ, maxJ with
  | .int mn, .nonInt =>
    rw [secureRandomNumber_nonIntBounds stream (.int mn) .nonInt _ fuel (Or.inr rfl),
      secureRandomNumber_nonIntBounds stream (.int mn) .nonInt _ fuel (Or.inr rfl),
      generatorNext_nonIntBounds stream (.int mn) .nonInt _ fuel st (Or.inr rfl),
      generatorNext_nonIntBounds stream (.int mn) .nonInt _ fuel st (Or.inr rfl)]
    exact ⟨rfl, rfl⟩
  | .nonInt, mx =>
    rw [secureRandomNumber_nonIntBounds stream .nonInt mx _ fuel (Or.inl rfl),
      secureRandomNumber_nonIntBounds stream .nonInt mx _ fuel (Or.inl rfl),
      generatorNext_nonIntBounds stream .nonInt mx _ fuel st (Or.inl rfl),
      generatorNext_nonIntBounds stream .nonInt mx _ fuel st (Or.inl rfl)]
    exact ⟨rfl, rfl⟩
  | .int mn, .int mx =>
    rw [secureRandomNumber_cases, secureRandomNumber_cases,
      generatorNext_cases, generatorNext_cases]
    rw [nonInt_member_count mn mx l]
    rw [sampleLoopOneShot_congr stream mn ((mx - mn).toNat) (TWO32 - TWO32 % (mx - mn).toNat)
      (normIgOpt (some (.jsIter (JSNum.nonInt :: l)))) (normIgOpt (some (.jsIter l)))
      (nonInt_member_has l) fuel 0]
    rw [sampleLoopGen_congr stream mn ((mx - mn).toNat) (TWO32 - TWO32 % (mx - mn).toNat)
      (normIgOpt (some (.jsIter (JSNum.nonInt :: l)))) (normIgOpt (some (.jsIter l)))
      (nonInt_member_has l) fuel st]
    have hbad : ignoreTypeBad (some (.jsIter (JSNum.nonInt :: l))) =
        ignoreTypeBad (some (.jsIter l)) := rfl
    rw [hbad]
    exact ⟨rfl, rfl⟩

theorem drawError_classification (stream : Nat → Nat) (fuel : Nat) (st : GenState)
    (minJ maxJ : JSNum) (ig : Option IgnoreInput) :
    (secureRandomNumber stream (.two minJ maxJ ig) fuel = .error .invalidRange ↔
      invalidBounds minJ maxJ = true) ∧
    (secureRandomNumber stream (.two minJ maxJ ig) fuel = .error .rangeTooLarge ↔
      invalidBounds minJ maxJ = false ∧ jsRange minJ maxJ > TWO32) ∧
    (secureRandomNumber stream (.two minJ maxJ ig) fuel = .error .invalidIgnoreType ↔
      invalidBounds minJ maxJ = false ∧ jsRange minJ maxJ ≤ TWO32 ∧
        ignoreTypeBad ig = true) ∧
    (secureRandomNumber stream (.two minJ maxJ ig) fuel = .error .exhaustedRange ↔
      invalidBounds minJ maxJ = false ∧ jsRange minJ maxJ ≤ TWO32 ∧
        ignoreTypeBad ig = false ∧ jsCount minJ maxJ ig ≥ jsRange minJ maxJ) ∧
    (invalidBounds minJ maxJ = false → jsRange minJ maxJ ≤ TWO32 →
      ignoreTypeBad ig = false → jsCount minJ maxJ ig < jsRange minJ maxJ →
      ∃ o, secureRandomNumber stream (.two minJ maxJ ig) fuel = .ok o) ∧
    (generatorNext stream (.two minJ maxJ ig) fuel st = .error .invalidRange ↔
      invalidBounds minJ maxJ = true) ∧
    (generatorNext stream (.two minJ maxJ ig) fuel st = .error .rangeTooLarge ↔
      invalidBounds minJ maxJ = false ∧ jsRange minJ maxJ > TWO32) ∧
    (generatorNext stream (.two minJ maxJ ig) fuel st = .error .invalidIgnoreType ↔
      invalidBounds minJ maxJ = false ∧ jsRange minJ maxJ ≤ TWO32 ∧
        ignoreTypeBad ig = true) ∧
    (generatorNext stream (.two minJ maxJ ig) fuel st = .error .exhaustedRange ↔
      invalidBounds minJ maxJ = false ∧ jsRange minJ maxJ ≤ TWO32 ∧
        ignoreTypeBad ig = false ∧ jsCount minJ maxJ ig ≥ jsRange minJ maxJ) ∧
    (invalidBounds minJ maxJ = false → jsRange minJ maxJ ≤ TWO32 →
      ignoreTypeBad ig = false → jsCount minJ maxJ ig < jsRange minJ maxJ →
      ∃ o, generatorNext stream (.two minJ maxJ ig) fuel st = .ok o) := by
  match minJ, maxJ with
  | .int mn, .nonInt =>
    rw [secureRandomNumber_nonIntBounds stream (.int mn) .nonInt ig fuel (Or.inr rfl),
      generatorNext_nonIntBounds stream (.int mn) .nonInt ig fuel st (Or.inr rfl)]
    simp [invalidBounds]
  | .nonInt, mx =>
    rw [secureRandomNumber_nonIntBounds stream .nonInt mx ig fuel (Or.inl rfl),
      generatorNext_nonIntBounds stream .nonInt mx ig fuel st (Or.inl rfl)]
    simp [invalidBounds]
  | .int mn, .int mx =>
    rw [secureRandomNumber_cases, generatorNext_cases]
    by_cases h1 : mx ≤ mn
    · rw [if_pos h1, if_pos h1]
      simp [invalidBounds, h1]
    · rw [if_neg h1, if_neg h1]
      by_cases h2 : (mx - mn).toNat > TWO32
      · rw [if_pos h2, if_pos h2]
        have hA : ¬ mx ≤ (TWO32 : Int) + mn := by omega
        simp [invalidBounds, jsRange, h1, h2, hA]
      · rw [if_neg h2, if_neg h2]
        have hA : mx ≤ (TWO32 : Int) + mn := by omega
        by_cases h3 : ignoreTypeBad ig = true
        · rw [if_pos h3, if_pos h3]
          simp [invalidBounds, jsRange, h1, h2, h3, hA]
        · rw [if_neg h3, if_neg h3]
          by_cases h4 : countExcludedInRange mn mx (normalizedElems ig) ≥ (mx - mn).toNat
          · rw [if_pos h4, if_pos h4]
            simp only [Bool.not_eq_true] at h3
            have hB : mx ≤ (countExcludedInRange mn mx (normalizedElems ig) : Int) + mn := by
              omega
            simp [invalidBounds, jsRange, jsCount, h1, h2, h3, h4, hA, hB]
          · rw [if_neg h4, if_neg h4]
            simp only [Bool.not_eq_true] at h3
            have hC : (countExcludedInRange mn mx (normalizedElems ig) : Int) + mn < mx := by
              omega
            simp [invalidBounds, jsRange, jsCount, h1, h2, h3, h4, hA, hC]

/-- C5: the bounded draw (one-shot and session) fails, identically for every
entropy stream, session state, and fuel, with: invalid-range exactly when a
bound is not an integer or `max <= min`; range-too-large exactly when the
bounds are valid but `max - min > 2^32`; invalid-exclusion-type exactly when
the earlier checks pass and the exclusion argument is a bare string or not
iterable; exhausted-range exactly when the earlier checks pass and the count
of distinct excluded integers inside `[min, max)` reaches `max - min`; and
with no error otherwise.  Prepending a non-integer member to an (iterable)
exclusion input changes nothing. -/
theorem claim_C5 (stream : Nat → Nat) (args : NextArgs) (fuel : Nat) (st : GenState) :
    ((secureRandomNumber stream args fuel = .error .invalidRange ↔
      invalidBounds (parseArgs args).1 (parseArgs args).2.1 = true) ∧
     (secureRandomNumber stream args fuel = .error .rangeTooLarge ↔
      invalidBounds (parseArgs args).1 (parseArgs args).2.1 = false ∧
        jsRange (parseArgs args).1 (parseArgs args).2.1 > TWO32) ∧
     (secureRandomNumber stream args fuel = .error .invalidIgnoreType ↔
      invalidBounds (parseArgs args).1 (parseArgs args).2.1 = false ∧
        jsRange (parseArgs args).1 (parseArgs args).2.1 ≤ TWO32 ∧
        ignoreTypeBad (parseArgs args).2.2 = true) ∧
     (secureRandomNumber stream args fuel = .error .exhaustedRange ↔
      invalidBounds (parseArgs args).1 (parseArgs args).2.1 = false ∧
        jsRange (parseArgs args).1 (parseArgs args).2.1 ≤ TWO32 ∧
        ignoreTypeBad (parseArgs args).2.2 = false ∧
        jsCount (parseArgs args).1 (parseArgs args).2.1 (parseArgs args).2.2 ≥
          jsRange (parseArgs args).1 (parseArgs args).2.1) ∧
     (invalidBounds (parseArgs args).1 (parseArgs args).2.1 = false →
      jsRange (parseArgs args).1 (parseArgs args).2.1 ≤ TWO32 →
      ignoreTypeBad (parseArgs args).2.2 = false →
      jsCount (parseArgs args).1 (parseArgs args).2.1 (parseArgs args).2.2 <
        jsRange (parseArgs args).1 (parseArgs args).2.1 →
      ∃ o, secureRandomNumber stream args fuel = .ok o)) ∧
    ((generatorNext stream args fuel st = .error .invalidRange ↔
      invalidBounds (parseArgs args).1 (parseArgs args).2.1 = true) ∧
     (generatorNext stream args fuel st = .error .rangeTooLarge ↔
      invalidBounds (parseArgs args).1 (parseArgs args).2.1 = false ∧
        jsRange (parseArgs args).1 (parseArgs args).2.1 > TWO32) ∧
     (generatorNext stream args fuel st = .error .invalidIgnoreType ↔
      invalidBounds (parseArgs args).1 (parseArgs args).2.1 = false ∧
        jsRange (parseArgs args).1 (parseArgs args).2.1 ≤ TWO32 ∧
        ignoreTypeBad (parseArgs args).2.2 = true) ∧
     (generatorNext stream args fuel st = .error .exhaustedRange ↔
      invalidBounds (parseArgs args).1 (parseArgs args).2.1 = false ∧
        jsRange (parseArgs args).1 (parseArgs args).2.1 ≤ TWO32 ∧
        ignoreTypeBad (parseArgs args).2.2 = false ∧
        jsCount (parseArgs args).1 (parseArgs args).2.1 (parseArgs args).2.2 ≥
          jsRange (parseArgs args).1 (parseArgs args).2.1) ∧
     (invalidBounds (parseArgs args).1 (parseArgs args).2.1 = false →
      jsRange (parseArgs args).1 (parseArgs args).2.1 ≤ TWO32 →
      ignoreTypeBad (parseArgs args).2.2 = false →
      jsCount (parseArgs args).1 (parseArgs args).2.1 (parseArgs args).2.2 <
        jsRange (parseArgs args).1 (parseArgs args).2.1 →
      ∃ o, generatorNext stream args fuel st = .ok o)) ∧
    (∀ (minJ maxJ : JSNum) (l : List JSNum),
      secureRandomNumber stream (.two minJ maxJ (some (.jsIter (JSNum.nonInt :: l)))) fuel =
        secureRandomNumber stream (.two minJ maxJ (some (.jsIter l))) fuel ∧
      generatorNext stream (.two minJ maxJ (some (.jsIter (JSNum.nonInt :: l)))) fuel st =
        generatorNext stream (.two minJ maxJ (some (.jsIter l))) fuel st) := by
  refine ⟨?_, ?_, fun minJ maxJ l => nonInt_member_invariance stream minJ maxJ l fuel st⟩
  · match args with
    | .one m ig =>
      obtain ⟨a1, a2, a3, a4, a5, -⟩ := drawError_classification stream fuel st (.int 0) m ig
      exact ⟨a1, a2, a3, a4, a5⟩
    | .two mn mx ig =>
      obtain ⟨a1, a2, a3, a4, a5, -⟩ := drawError_classification stream fuel st mn mx ig
      exact ⟨a1, a2, a3, a4, a5⟩
  · match args with
    | .one m ig =>
      obtain ⟨-, -, -, -, -, b1, b2, b3, b4, b5⟩ :=
        drawError_classification stream fuel st (.int 0) m ig
      exact ⟨b1, b2, b3, b4, b5⟩
    | .two mn mx ig =>
      obtain ⟨-, -, -, -, -, b1, b2, b3, b4, b5⟩ :=
        drawError_classification stream fuel st mn mx ig
      exact ⟨b1, b2, b3, b4, b5⟩

/-- C7: the one-shot and session draws have identical semantics: on the same
entropy stream a fresh session's `next` returns exactly what
`secureRandomNumber` returns (same values and same errors, the session merely
adding its state to the output), and for both functions the one-argument
overload `draw(max)` equals `draw(0, max)` with any exclusion argument. -/
theorem claim_C7 (stream : Nat → Nat) (args : NextArgs) (fuel : Nat) (st : GenState)
    (m : JSNum) (ig : Option IgnoreInput) :
    ((generatorNext stream args fuel initState).map (Option.map Prod.fst) =
      secureRandomNumber stream args fuel) ∧
    secureRandomNumber stream (.one m ig) fuel =
      secureRandomNumber stream (.two (.int 0) m ig) fuel ∧
    generatorNext stream (.one m ig) fuel st =
      generatorNext stream (.two (.int 0) m ig) fuel st :=
  ⟨generatorNext_fresh_eq stream args fuel, rfl, rfl⟩

/-- C4: whatever `secureShuffle` returns is a permutation (the same multiset,
hence the same length) of its input, and inputs of length 0 or 1 are returned
unchanged together with an untouched generator state (zero draws). -/
theorem claim_C4 {α : Type} (stream : Nat → Nat) (arr : List α) (genSt : Option GenState)
    (fuel : Nat) :
    (∀ (out : List α) (st' : GenState),
      secureShuffle stream arr genSt fuel = some (out, st') →
      out.Perm arr ∧ out.length = arr.length) ∧
    (arr.length ≤ 1 → secureShuffle stream arr genSt fuel = some (arr, genSt.getD initState)) := by
  constructor
  · intro out st' h
    have hp := secureShuffle_perm stream arr genSt fuel out st' h
    exact ⟨hp, hp.length_eq⟩
  · intro hlen
    exact secureShuffle_short stream arr genSt fuel hlen

/-! ## String-generator lemmas -/

theorem generatorNext_one_bounds (stream : Nat → Nat) (n : Nat) (fuel : Nat) (st : GenState)
    (v : Int) (st' : GenState)
    (h : generatorNext stream (.one (.int n) none) fuel st = .ok (some (v, st'))) :
    0 ≤ v ∧ v.toNat < n := by
  have h' : generatorNext stream (.two (.int 0) (.int n) none) fuel st = .ok (some (v, st')) := h
  rw [generatorNext_cases] at h'
  by_cases h1 : (n : Int) ≤ 0
  · rw [if_pos h1] at h'
    exact absurd h' (by simp)
  · rw [if_neg h1] at h'
    by_cases h2 : ((n : Int) - 0).toNat > TWO32
    · rw [if_pos h2] at h'
      exact absurd h' (by simp)
    · rw [if_neg h2] at h'
      rw [if_neg (by simp [ignoreTypeBad])] at h'
      rw [if_neg (by simp [countExcludedInRange, normalizedElems]; omega)] at h'
      have hgen : sampleLoopGen stream 0 (((n : Int) - 0).toNat)
          (TWO32 - TWO32 % ((n : Int) - 0).toNat) (normIgOpt none) fuel st =
            some (v, st') := by
        injection h'
      obtain ⟨⟨w, -, hw⟩, -⟩ := sampleLoopGen_mem stream 0 _ _ _ fuel st v st' hgen
      have hr : 0 < ((n : Int) - 0).toNat := by omega
      have hmod := Nat.mod_lt w hr
      have h53 : (2 : Nat) ^ 53 = 9007199254740992 := by norm_num
      have hT : TWO32 = 4294967296 := rfl
      have hexact : jsAdd 0 (Int.ofNat (w % ((n : Int) - 0).toNat)) =
          0 + Int.ofNat (w % ((n : Int) - 0).toNat) := by
        apply jsAdd_exact
        simp only [Int.ofNat_eq_natCast]
        omega
      rw [hexact] at hw
      simp only [Int.ofNat_eq_natCast] at hw
      constructor
      · omega
      · omega

theorem buildClass_acc_ok (stream : Nat → Nat) (fuel : Nat) (opt : ClassOpt) (dflt : String)
    (acc : Except DrawError (Option ((String × List Char) × GenState)))
    (out : (String × List Char) × GenState)
    (h : buildClass stream fuel opt dflt acc = .ok (some out)) :
    ∃ inner, acc = .ok (some inner) := by
  match acc with
  | .error e => rw [buildClass] at h; exact absurd h (by simp)
  | .ok none => rw [buildClass] at h; exact absurd h (by simp)
  | .ok (some inner) => exact ⟨inner, rfl⟩

theorem buildClass_step (stream : Nat → Nat) (fuel : Nat) (opt : ClassOpt) (dflt : String)
    (cs : String) (gs : List Char) (st : GenState) (cs' : String) (gs' : List Char)
    (st'' : GenState)
    (h : buildClass stream fuel opt dflt (.ok (some ((cs, gs), st))) =
      .ok (some ((cs', gs'), st''))) :
    cs' = cs ++ (if _shouldIncludeSet opt then usedSet opt dflt else "") ∧
    ∃ extra, gs' = gs ++ extra ∧
      extra.length = (if _shouldIncludeSet opt then 1 else 0) ∧
      ∀ g ∈ extra, g ∈ (usedSet opt dflt).data := by
  rw [buildClass] at h
  by_cases hinc : _shouldIncludeSet opt = true
  · rw [if_pos hinc] at h
    cases hdraw : generatorNext stream (.one (.int ((usedSet opt dflt).length : Int)) none)
        fuel st with
    | error e =>
      have hcsb : _characterSetBuilder stream fuel opt dflt st = .error e := by
        simp only [_characterSetBuilder, hdraw]
      simp only [hcsb] at h
      exact absurd h (by simp)
    | ok oval =>
      match oval with
      | none =>
        have hcsb : _characterSetBuilder stream fuel opt dflt st = .ok none := by
          simp only [_characterSetBuilder, hdraw]
        simp only [hcsb] at h
        exact absurd h (by simp)
      | some (j, st1) =>
        have hcsb : _characterSetBuilder stream fuel opt dflt st =
            .ok (some ((usedSet opt dflt, (usedSet opt dflt).data.getD j.toNat 'A'), st1)) := by
          simp only [_characterSetBuilder, hdraw]
        simp only [hcsb] at h
        simp only [Except.ok.injEq, Option.some.injEq, Prod.mk.injEq] at h
        obtain ⟨⟨hcs, hgs⟩, hst⟩ := h
        obtain ⟨-, hjlt⟩ := generatorNext_one_bounds stream _ fuel st j st1 hdraw
        refine ⟨by rw [← hcs, if_pos hinc], [(usedSet opt dflt).data.getD j.toNat 'A'],
          by rw [← hgs], by rw [if_pos hinc]; rfl, ?_⟩
        intro g hg
        simp only [List.mem_singleton] at hg
        subst hg
        have hlen : j.toNat < (usedSet opt dflt).data.length := hjlt
        rw [List.getD_eq_getElem _ _ hlen]
        exact List.getElem_mem hlen
  · simp only [Bool.not_eq_true] at hinc
    rw [if_neg (by simp [hinc])] at h
    simp only [Except.ok.injEq, Option.some.injEq, Prod.mk.injEq] at h
    obtain ⟨⟨hcs, hgs⟩, hst⟩ := h
    exact ⟨by rw [← hcs, if_neg (by simp [hinc]), String.append_empty],
      [], by rw [← hgs, List.append_nil], by simp [hinc], by simp⟩

theorem string_empty_append (s : String) : ("" : String) ++ s = s := by
  apply String.ext
  rw [String.data_append]
  rfl

theorem builtChain_spec (stream : Nat → Nat) (fuel : Nat) (r : ResolvedOptions)
    (cs : String) (gs : List Char) (st1 : GenState)
    (h : buildClass stream fuel r.specials DEFAULT_SPECIALS
        (buildClass stream fuel r.numbers DEFAULT_NUMBERS
          (buildClass stream fuel r.lowercase DEFAULT_LOWERCASE
            (buildClass stream fuel r.uppercase DEFAULT_UPPERCASE
              (.ok (some (("", []), initState)))))) = .ok (some ((cs, gs), st1))) :
    cs = enabledCharset r ∧ gs.length = numEnabled r ∧
    (∀ g ∈ gs, g ∈ cs.data) ∧
    (∀ p ∈ classesOf r, _shouldIncludeSet p.1 = true →
      ∃ g, g ∈ gs ∧ g ∈ (usedSet p.1 p.2).data) := by
  obtain ⟨⟨⟨cs3, gs3⟩, stA⟩, h3⟩ := buildClass_acc_ok _ _ _ _ _ _ h
  rw [h3] at h
  obtain ⟨⟨⟨cs2, gs2⟩, stB⟩, h2⟩ := buildClass_acc_ok _ _ _ _ _ _ h3
  rw [h2] at h3
  obtain ⟨⟨⟨cs1, gs1⟩, stC⟩, h1⟩ := buildClass_acc_ok _ _ _ _ _ _ h2
  rw [h1] at h2
  obtain ⟨⟨⟨cs0, gs0⟩, stD⟩, h0⟩ := buildClass_acc_ok _ _ _ _ _ _ h1
  rw [h0] at h1
  have h0' : cs0 = "" ∧ gs0 = [] ∧ stD = initState := by
    simp only [Except.ok.injEq, Option.some.injEq, Prod.mk.injEq] at h0
    exact ⟨h0.1.1.symm, h0.1.2.symm, h0.2.symm⟩
  obtain ⟨rfl, rfl, rfl⟩ := h0'
  obtain ⟨e1cs, x1, e1gs, e1len, e1mem⟩ := buildClass_step _ _ _ _ _ _ _ _ _ _ h1
  obtain ⟨e2cs, x2, e2gs, e2len, e2mem⟩ := buildClass_step _ _ _ _ _ _ _ _ _ _ h2
  obtain ⟨e3cs, x3, e3gs, e3len, e3mem⟩ := buildClass_step _ _ _ _ _ _ _ _ _ _ h3
  obtain ⟨e4cs, x4, e4gs, e4len, e4mem⟩ := buildClass_step _ _ _ _ _ _ _ _ _ _ h
  have hcseq : cs = enabledCharset r := by
    rw [e4cs, e3cs, e2cs, e1cs, string_empty_append, enabledCharset]
  have hgslen : gs.length = numEnabled r := by
    rw [e4gs, e3gs, e2gs, e1gs]
    simp only [List.length_append, List.length_nil, e1len, e2len, e3len, e4len, numEnabled]
    omega
  have hxmem : ∀ g ∈ gs, g ∈ cs.data := by
    intro g hg
    rw [e4gs, e3gs, e2gs, e1gs] at hg
    have hclsmem : ∀ (opt : ClassOpt) (dflt : String) (x : List Char),
        (∀ g' ∈ x, g' ∈ (usedSet opt dflt).data) →
        x.length = (if _shouldIncludeSet opt then 1 else 0) → g ∈ x →
        g ∈ (if _shouldIncludeSet opt then usedSet opt dflt else "").data := by
      intro opt dflt x hxm hxl hgx
      by_cases hop : _shouldIncludeSet opt = true
      · rw [if_pos hop]
        exact hxm g hgx
      · rw [if_neg hop] at hxl
        rw [List.length_eq_zero] at hxl
        subst hxl
        simp at hgx
    simp only [List.append_assoc, List.nil_append, List.mem_append] at hg
    rw [hcseq, enabledCharset]
    simp only [String.data_append, List.mem_append]
    rcases hg with h' | h' | h' | h'
    · exact Or.inl (Or.inl (Or.inl (hclsmem _ _ x1 e1mem e1len h')))
    · exact Or.inl (Or.inl (Or.inr (hclsmem _ _ x2 e2mem e2len h')))
    · exact Or.inl (Or.inr (hclsmem _ _ x3 e3mem e3len h'))
    · exact Or.inr (hclsmem _ _ x4 e4mem e4len h')
  refine ⟨hcseq, hgslen, hxmem, ?_⟩
  intro p hp hpinc
  have hone : ∀ (opt : ClassOpt) (x : List Char),
      x.length = (if _shouldIncludeSet opt then 1 else 0) → _shouldIncludeSet opt = true →
      ∃ g, x = [g] := by
    intro opt x hxl hop
    rw [if_pos hop] at hxl
    exact List.length_eq_one.mp hxl
  have hgsall : gs = (([] ++ x1) ++ x2) ++ x3 ++ x4 := by
    rw [e4gs, e3gs, e2gs, e1gs]
  simp only [classesOf, List.mem_cons, List.not_mem_nil, or_false] at hp
  rcases hp with rfl | rfl | rfl | rfl
  · obtain ⟨g, rfl⟩ := hone _ x1 e1len hpinc
    exact ⟨g, by rw [hgsall]; simp, e1mem g (by simp)⟩
  · obtain ⟨g, rfl⟩ := hone _ x2 e2len hpinc
    exact ⟨g, by rw [hgsall]; simp, e2mem g (by simp)⟩
  · obtain ⟨g, rfl⟩ := hone _ x3 e3len hpinc
    exact ⟨g, by rw [hgsall]; simp, e3mem g (by simp)⟩
  · obtain ⟨g, rfl⟩ := hone _ x4 e4len hpinc
    exact ⟨g, by rw [hgsall]; simp, e4mem g (by simp)⟩

theorem randomCharsLoop_ok (stream : Nat → Nat) (fuel : Nat) (charset : String) :
    ∀ (k : Nat) (st : GenState) (chars : List Char) (st' : GenState),
      randomCharsLoop stream fuel charset k st = .ok (some (chars, st')) →
      chars.length = k ∧ ∀ c ∈ chars, c ∈ charset.data := by
  intro k
  induction k with
  | zero =>
    intro st chars st' h
    rw [randomCharsLoop] at h
    simp only [Except.ok.injEq, Option.some.injEq, Prod.mk.injEq] at h
    obtain ⟨h1, -⟩ := h
    subst h1
    simp
  | succ n ih =>
    intro st chars st' h
    rw [randomCharsLoop] at h
    cases hdraw : generatorNext stream (.one (.int (charset.length : Int)) none) fuel st with
    | error e =>
      simp only [hdraw] at h
      exact absurd h (by simp)
    | ok oval =>
      match oval with
      | none =>
        simp only [hdraw] at h
        exact absurd h (by simp)
      | some (j, st1) =>
        simp only [hdraw] at h
        cases hrec : randomCharsLoop stream fuel charset n st1 with
        | error e =>
          simp only [hrec] at h
          exact absurd h (by simp)
        | ok rval =>
          match rval with
          | none =>
            simp only [hrec] at h
            exact absurd h (by simp)
          | some (rest, st2) =>
            simp only [hrec] at h
            simp only [Except.ok.injEq, Option.some.injEq, Prod.mk.injEq] at h
            obtain ⟨hchars, -⟩ := h
            obtain ⟨hrl, hrm⟩ := ih st1 rest st2 hrec
            obtain ⟨-, hjlt⟩ := generatorNext_one_bounds stream _ fuel st j st1 hdraw
            subst hchars
            constructor
            · simp [hrl]
            · intro c hc
              rcases List.mem_cons.mp hc with rfl | hc'
              · have hlen : j.toNat < charset.data.length := hjlt
                rw [List.getD_eq_getElem _ _ hlen]
                exact List.getElem_mem hlen
              · exact hrm c hc'

theorem secureGenerate_ok_parts (stream : Nat → Nat) (now : Nat) (arg : GenArg) (fuel : Nat)
    (s : String) (h : secureGenerate stream now arg fuel = .ok (some s)) :
    ∃ (cs : String) (gs : List Char) (st1 st2 st3 : GenState)
      (rand finalArr : List Char),
      buildClass stream fuel (resolveArg arg).specials DEFAULT_SPECIALS
        (buildClass stream fuel (resolveArg arg).numbers DEFAULT_NUMBERS
          (buildClass stream fuel (resolveArg arg).lowercase DEFAULT_LOWERCASE
            (buildClass stream fuel (resolveArg arg).uppercase DEFAULT_UPPERCASE
              (.ok (some (("", []), initState)))))) = .ok (some ((cs, gs), st1)) ∧
      cs ≠ "" ∧
      randomCharsLoop stream fuel cs
        (((resolveArg arg).length - (timestampString (resolveArg arg) now).length -
          gs.length).toNat) st1 = .ok (some (rand, st2)) ∧
      secureShuffle stream (gs ++ rand) (some st2) fuel = some (finalArr, st3) ∧
      s = timestampString (resolveArg arg) now ++
        String.mk (finalArr.take ((resolveArg arg).length -
          (timestampString (resolveArg arg) now).length).toNat) ∧
      ¬ (resolveArg arg).length < 1 ∧
      ¬ (timestampString (resolveArg arg) now ≠ "" ∧
        (resolveArg arg).length ≤ (timestampString (resolveArg arg) now).length) := by
  rw [secureGenerate] at h
  split at h
  · exact absurd h (by simp)
  · split at h
    · exact absurd h (by simp)
    · rename_i hlen hts
      cases hbuilt : buildClass stream fuel (resolveArg arg).specials DEFAULT_SPECIALS
          (buildClass stream fuel (resolveArg arg).numbers DEFAULT_NUMBERS
            (buildClass stream fuel (resolveArg arg).lowercase DEFAULT_LOWERCASE
              (buildClass stream fuel (resolveArg arg).uppercase DEFAULT_UPPERCASE
                (.ok (some (("", []), initState)))))) with
      | error e =>
        simp only [hbuilt] at h
        exact absurd h (by simp)
      | ok bval =>
        match bval with
        | none =>
          simp only [hbuilt] at h
          exact absurd h (by simp)
        | some ((cs, gs), st1) =>
          simp only [hbuilt] at h
          split at h
          · exact absurd h (by simp)
          · rename_i hcs
            cases hrand : randomCharsLoop stream fuel cs
                (((resolveArg arg).length - (timestampString (resolveArg arg) now).length -
                  gs.length).toNat) st1 with
            | error e =>
              simp only [hrand] at h
              exact absurd h (by simp)
            | ok rval =>
              match rval with
              | none =>
                simp only [hrand] at h
                exact absurd h (by simp)
              | some (rand, st2) =>
                simp only [hrand] at h
                cases hshuf : secureShuffle stream (gs ++ rand) (some st2) fuel with
                | none =>
                  simp only [hshuf] at h
                  exact absurd h (by simp)
                | some p =>
                  obtain ⟨finalArr, st3⟩ := p
                  simp only [hshuf] at h
                  simp only [Except.ok.injEq, Option.some.injEq] at h
                  exact ⟨cs, gs, st1, st2, st3, rand, finalArr, rfl, hcs, hrand, hshuf,
                    h.symm, hlen, hts⟩

theorem secureGenerate_spec (stream : Nat → Nat) (now : Nat) (arg : GenArg) (fuel : Nat)
    (s : String) (h : secureGenerate stream now arg fuel = .ok (some s)) :
    s.length = (resolveArg arg).length.toNat ∧
    (∀ c ∈ s.data.drop (timestampString (resolveArg arg) now).length,
      c ∈ (enabledCharset (resolveArg arg)).data) ∧
    (numEnabled (resolveArg arg) ≤
        ((resolveArg arg).length - (timestampString (resolveArg arg) now).length).toNat →
      ∀ p ∈ classesOf (resolveArg arg), _shouldIncludeSet p.1 = true →
        ∃ c, c ∈ s.data.drop (timestampString (resolveArg arg) now).length ∧
          c ∈ (usedSet p.1 p.2).data) := by
  obtain ⟨cs, gs, st1, st2, st3, rand, finalArr, hbuilt, hcsne, hrand, hshuf, hs, hlen, htsg⟩ :=
    secureGenerate_ok_parts stream now arg fuel s h
  obtain ⟨hcseq, hgslen, hgmem, hgclass⟩ :=
    builtChain_spec stream fuel (resolveArg arg) cs gs st1 hbuilt
  obtain ⟨hrlen, hrmem⟩ := randomCharsLoop_ok stream fuel cs _ st1 rand st2 hrand
  have hperm := secureShuffle_perm stream (gs ++ rand) (some st2) fuel finalArr st3 hshuf
  have hfal : finalArr.length = gs.length + rand.length := by
    rw [hperm.length_eq, List.length_append]
  have hsdata : s.data = (timestampString (resolveArg arg) now).data ++
      finalArr.take (((resolveArg arg).length -
        ((timestampString (resolveArg arg) now).length : Int)).toNat) := by
    rw [hs, String.data_append]
  have htscase : timestampString (resolveArg arg) now = "" ∨
      ((timestampString (resolveArg arg) now).length : Int) < (resolveArg arg).length := by
    rcases Decidable.not_and_iff_or_not.mp htsg with h' | h'
    · left; simpa using h'
    · right; omega
  have htlen : ((timestampString (resolveArg arg) now).length : Int) < (resolveArg arg).length ∨
      (timestampString (resolveArg arg) now).length = 0 := by
    rcases htscase with h' | h'
    · right; rw [h']; rfl
    · left; exact h'
  have hkey : ((resolveArg arg).length -
      ((timestampString (resolveArg arg) now).length : Int)).toNat ≤ finalArr.length := by
    rw [hfal, hrlen]
    omega
  have hdrop : s.data.drop (timestampString (resolveArg arg) now).length =
      finalArr.take (((resolveArg arg).length -
        ((timestampString (resolveArg arg) now).length : Int)).toNat) := by
    rw [hsdata]
    exact List.drop_left _ _
  refine ⟨?_, ?_, ?_⟩
  · have : s.length = s.data.length := rfl
    rw [this, hsdata, List.length_append, List.length_take]
    have hmin : min (((resolveArg arg).length -
        ((timestampString (resolveArg arg) now).length : Int)).toNat) finalArr.length =
        (((resolveArg arg).length -
          ((timestampString (resolveArg arg) now).length : Int)).toNat) :=
      Nat.min_eq_left hkey
    rw [hmin]
    have htd : (timestampString (resolveArg arg) now).data.length =
        (timestampString (resolveArg arg) now).length := rfl
    rw [htd]
    omega
  · intro c hc
    rw [hdrop] at hc
    have hcf : c ∈ finalArr := List.mem_of_mem_take hc
    have hgr : c ∈ gs ++ rand := hperm.mem_iff.mp hcf
    rw [← hcseq]
    rcases List.mem_append.mp hgr with h' | h'
    · exact hgmem c h'
    · exact hrmem c h'
  · intro hle p hp hpinc
    have hfull : finalArr.take (((resolveArg arg).length -
        ((timestampString (resolveArg arg) now).length : Int)).toNat) = finalArr := by
      apply List.take_of_length_le
      rw [hfal, hrlen]
      omega
    obtain ⟨g, hggs, hgu⟩ := hgclass p hp hpinc
    refine ⟨g, ?_, hgu⟩
    rw [hdrop, hfull]
    exact hperm.mem_iff.mpr (List.mem_append_left rand hggs)

theorem buildClass_disabled (stream : Nat → Nat) (fuel : Nat) (opt : ClassOpt) (dflt : String)
    (h : _shouldIncludeSet opt = false) :
    ∀ acc, buildClass stream fuel opt dflt acc = acc := by
  intro acc
  match acc with
  | .error e => rfl
  | .ok none => rfl
  | .ok (some ((cs, gs), st)) =>
    rw [buildClass, if_neg (by simp [h])]

theorem usedSet_pos (opt : ClassOpt) (dflt : String) (hd : 0 < dflt.length)
    (h : _shouldIncludeSet opt = true) : 0 < (usedSet opt dflt).length := by
  cases opt with
  | flag b => exact hd
  | custom s => simpa [_shouldIncludeSet] using h

theorem string_eq_empty_iff (s : String) : s = "" ↔ s.data = [] := by
  constructor
  · intro h; rw [h]
  · intro h; exact String.ext h

theorem enabledCharset_eq_empty_iff (r : ResolvedOptions) :
    enabledCharset r = "" ↔
      (_shouldIncludeSet r.uppercase = false ∧ _shouldIncludeSet r.lowercase = false ∧
       _shouldIncludeSet r.numbers = false ∧ _shouldIncludeSet r.specials = false) := by
  have hpiece : ∀ (opt : ClassOpt) (dflt : String), 0 < dflt.length →
      ((if _shouldIncludeSet opt then usedSet opt dflt else "").data = [] ↔
        _shouldIncludeSet opt = false) := by
    intro opt dflt hd
    by_cases hop : _shouldIncludeSet opt = true
    · rw [if_pos hop]
      have := usedSet_pos opt dflt hd hop
      constructor
      · intro hnil
        have : (usedSet opt dflt).data.length = 0 := by rw [hnil]; rfl
        have hL : (usedSet opt dflt).length = (usedSet opt dflt).data.length := rfl
        omega
      · intro hf; rw [hop] at hf; exact absurd hf (by simp)
    · simp only [Bool.not_eq_true] at hop
      rw [if_neg (by simp [hop])]
      simp [hop]
  rw [string_eq_empty_iff, enabledCharset]
  simp only [String.data_append, List.append_eq_nil]
  rw [hpiece _ _ (by decide), hpiece _ _ (by decide), hpiece _ _ (by decide),
    hpiece _ _ (by decide)]
  constructor
  · rintro ⟨⟨⟨h1, h2⟩, h3⟩, h4⟩; exact ⟨h1, h2, h3, h4⟩
  · rintro ⟨h1, h2, h3, h4⟩; exact ⟨⟨⟨h1, h2⟩, h3⟩, h4⟩

theorem secureGenerate_error_spec (stream : Nat → Nat) (now : Nat) (arg : GenArg)
    (fuel : Nat) :
    (secureGenerate stream now arg fuel = .error .lengthError ↔
      (resolveArg arg).length < 1) ∧
    (secureGenerate stream now arg fuel = .error .timestampError ↔
      ¬ (resolveArg arg).length < 1 ∧
      (timestampString (resolveArg arg) now ≠ "" ∧
        (resolveArg arg).length ≤ (timestampString (resolveArg arg) now).length)) ∧
    (secureGenerate stream now arg fuel = .error .noCharTypes ↔
      ¬ (resolveArg arg).length < 1 ∧
      ¬ (timestampString (resolveArg arg) now ≠ "" ∧
        (resolveArg arg).length ≤ (timestampString (resolveArg arg) now).length) ∧
      (_shouldIncludeSet (resolveArg arg).uppercase = false ∧
       _shouldIncludeSet (resolveArg arg).lowercase = false ∧
       _shouldIncludeSet (resolveArg arg).numbers = false ∧
       _shouldIncludeSet (resolveArg arg).specials = false)) := by
  rw [secureGenerate]
  by_cases hL : (resolveArg arg).length < 1
  · rw [if_pos hL]
    simp [hL]
  · rw [if_neg hL]
    by_cases hT : timestampString (resolveArg arg) now ≠ "" ∧
        (resolveArg arg).length ≤ (timestampString (resolveArg arg) now).length
    · rw [if_pos hT]
      simp [hL, hT]
    · rw [if_neg hT]
      by_cases hall : _shouldIncludeSet (resolveArg arg).uppercase = false ∧
          _shouldIncludeSet (resolveArg arg).lowercase = false ∧
          _shouldIncludeSet (resolveArg arg).numbers = false ∧
          _shouldIncludeSet (resolveArg arg).specials = false
      · obtain ⟨ha, hb, hc, hd⟩ := hall
        rw [buildClass_disabled stream fuel _ _ hd, buildClass_disabled stream fuel _ _ hc,
          buildClass_disabled stream fuel _ _ hb, buildClass_disabled stream fuel _ _ ha]
        simp [hL, hT, ha, hb, hc, hd]
      · cases hbuilt : buildClass stream fuel (resolveArg arg).specials DEFAULT_SPECIALS
            (buildClass stream fuel (resolveArg arg).numbers DEFAULT_NUMBERS
              (buildClass stream fuel (resolveArg arg).lowercase DEFAULT_LOWERCASE
                (buildClass stream fuel (resolveArg arg).uppercase DEFAULT_UPPERCASE
                  (.ok (some (("", []), initState)))))) with
        | error e => simp [hL, hT, hall]
        | ok bval =>
          match bval with
          | none => simp [hL, hT, hall]
          | some ((cs, gs), st1) =>
            obtain ⟨hcseq, -, -, -⟩ :=
              builtChain_spec stream fuel (resolveArg arg) cs gs st1 hbuilt
            have hcsne : ¬ cs = "" := by
              rw [hcseq]
              intro hcontra
              exact hall ((enabledCharset_eq_empty_iff (resolveArg arg)).mp hcontra)
            simp only [if_neg hcsne]
            cases hrand : randomCharsLoop stream fuel cs
                (((resolveArg arg).length - (timestampString (resolveArg arg) now).length -
                  gs.length).toNat) st1 with
            | error e => simp [hL, hT, hall]
            | ok rval =>
              match rval with
              | none => simp [hL, hT, hall]
              | some (rand, st2) =>
                cases hshuf : secureShuffle stream (gs ++ rand) (some st2) fuel with
                | none => simp [hL, hT, hall, hshuf]
                | some p =>
                  obtain ⟨finalArr, st3⟩ := p
                  simp [hL, hT, hall, hshuf]

/-! ## Claim theorems for the string generator -/

/-- C2: every string `secureGenerate` returns has exactly the requested
length; the characters after the timestamp come only from the union of the
enabled classes' alphabets; when the number of enabled classes fits into the
generated length, each enabled class contributes at least one character from
its own alphabet; with defaults the output has length 16 and a character of
each of the four classes, and with only the custom numbers alphabet "13579"
at length 6 the output is a 6-character string over that alphabet. -/
theorem claim_C2 (stream : Nat → Nat) (now : Nat) (arg : GenArg) (fuel : Nat) (s : String)
    (h : secureGenerate stream now arg fuel = .ok (some s)) :
    s.length = (resolveArg arg).length.toNat ∧
    (∀ c ∈ s.data.drop (timestampString (resolveArg arg) now).length,
      c ∈ (enabledCharset (resolveArg arg)).data) ∧
    (numEnabled (resolveArg arg) ≤
        ((resolveArg arg).length - (timestampString (resolveArg arg) now).length).toNat →
      ∀ p ∈ classesOf (resolveArg arg), _shouldIncludeSet p.1 = true →
        ∃ c, c ∈ s.data.drop (timestampString (resolveArg arg) now).length ∧
          c ∈ (usedSet p.1 p.2).data) ∧
    (∀ s', secureGenerate stream now (.opts {}) fuel = .ok (some s') →
      s'.length = 16 ∧ ∀ p ∈ classesOf (resolveArg (.opts {})),
        ∃ c, c ∈ s'.data ∧ c ∈ (usedSet p.1 p.2).data) ∧
    (∀ s', secureGenerate stream now (.opts customNumbersOpts) fuel =
          .ok (some s') →
      s'.length = 6 ∧ ∀ c ∈ s'.data, c ∈ ("13579" : String).data) := by
  obtain ⟨ha, hb, hc⟩ := secureGenerate_spec stream now arg fuel s h
  refine ⟨ha, hb, hc, ?_, ?_⟩
  · intro s' h'
    obtain ⟨ha', hb', hc'⟩ := secureGenerate_spec stream now (.opts {}) fuel s' h'
    refine ⟨ha'.trans (by decide), ?_⟩
    intro p hp
    have hinc : _shouldIncludeSet p.1 = true := by
      simp only [classesOf, List.mem_cons, List.not_mem_nil, or_false] at hp
      rcases hp with rfl | rfl | rfl | rfl <;> decide
    have hcnum : numEnabled (resolveArg (.opts {})) ≤
        ((resolveArg (.opts {})).length -
          ((timestampString (resolveArg (.opts {})) now).length : Int)).toNat := by
      rw [show timestampString (resolveArg (.opts {})) now = "" from rfl]
      decide
    obtain ⟨cc, hc1, hc2⟩ := hc' hcnum p hp hinc
    refine ⟨cc, ?_, hc2⟩
    have hts0 : (timestampString (resolveArg (.opts {})) now).length = 0 := rfl
    rw [hts0] at hc1
    simpa using hc1
  · intro s' h'
    obtain ⟨ha', hb', -⟩ := secureGenerate_spec stream now (.opts customNumbersOpts) fuel s' h'
    refine ⟨ha'.trans (by decide), ?_⟩
    intro cc hcc
    have hmem := hb' cc (by simpa using hcc)
    have he : (enabledCharset (resolveArg (.opts customNumbersOpts))).data =
        ("13579" : String).data := by decide
    rwa [he] at hmem

/-- Witness for C2 at the all-zero entropy stream and default options. -/
theorem claim_C2_witness :
    ("a0!AAAAAAAAAAAAA" : String).length = (resolveArg (.num 16)).length.toNat ∧
    (∀ c ∈ ("a0!AAAAAAAAAAAAA" : String).data.drop
        (timestampString (resolveArg (.num 16)) 0).length,
      c ∈ (enabledCharset (resolveArg (.num 16))).data) ∧
    (numEnabled (resolveArg (.num 16)) ≤
        ((resolveArg (.num 16)).length -
          (timestampString (resolveArg (.num 16)) 0).length).toNat →
      ∀ p ∈ classesOf (resolveArg (.num 16)), _shouldIncludeSet p.1 = true →
        ∃ c, c ∈ ("a0!AAAAAAAAAAAAA" : String).data.drop
            (timestampString (resolveArg (.num 16)) 0).length ∧
          c ∈ (usedSet p.1 p.2).data) ∧
    (∀ s', secureGenerate (fun _ => 0) 0 (.opts {}) 1 = .ok (some s') →
      s'.length = 16 ∧ ∀ p ∈ classesOf (resolveArg (.opts {})),
        ∃ c, c ∈ s'.data ∧ c ∈ (usedSet p.1 p.2).data) ∧
    (∀ s', secureGenerate (fun _ => 0) 0 (.opts customNumbersOpts) 1 =
          .ok (some s') →
      s'.length = 6 ∧ ∀ c ∈ s'.data, c ∈ ("13579" : String).data) :=
  claim_C2 (fun _ => 0) 0 (.num 16) 1 "a0!AAAAAAAAAAAAA" rfl

/-- The original C6 claim is false on the code: with the timestamp directive
enabled, an encoded timestamp of length 4 and requested length 0 (which is
both `< 1` and not greater than the timestamp length), the code raises the
length error, not the timestamp configuration error — the `length < 1` check
runs first. -/
theorem claim_C6_counterexample :
    secureGenerate (fun _ => 0) 0
      (.opts tsZeroLenOpts) 1 =
      .error .lengthError ∧
    timestampString (resolveArg
      (.opts tsZeroLenOpts)) 0 ≠ "" ∧
    (resolveArg (.opts tsZeroLenOpts)).length ≤
      (timestampString (resolveArg
        (.opts tsZeroLenOpts)) 0).length ∧
    GenError.lengthError ≠ GenError.timestampError :=
  ⟨rfl, by decide, by decide, by decide⟩

/-- C6 (amended): `secureGenerate` fails with the length error exactly when
the requested length is `< 1` (this check runs first, so it wins even with a
timestamp enabled); with the timestamp configuration error exactly when the
length is at least 1, the timestamp is enabled, and the length is not
strictly greater than the encoded timestamp's length; and with the
no-character-types error exactly when both length checks pass and all four
character classes are disabled. -/
theorem claim_C6 (stream : Nat → Nat) (now : Nat) (arg : GenArg) (fuel : Nat) :
    (secureGenerate stream now arg fuel = .error .lengthError ↔
      (resolveArg arg).length < 1) ∧
    (secureGenerate stream now arg fuel = .error .timestampError ↔
      ¬ (resolveArg arg).length < 1 ∧
      (timestampString (resolveArg arg) now ≠ "" ∧
        (resolveArg arg).length ≤ (timestampString (resolveArg arg) now).length)) ∧
    (secureGenerate stream now arg fuel = .error .noCharTypes ↔
      ¬ (resolveArg arg).length < 1 ∧
      ¬ (timestampString (resolveArg arg) now ≠ "" ∧
        (resolveArg arg).length ≤ (timestampString (resolveArg arg) now).length) ∧
      (_shouldIncludeSet (resolveArg arg).uppercase = false ∧
       _shouldIncludeSet (resolveArg arg).lowercase = false ∧
       _shouldIncludeSet (resolveArg arg).numbers = false ∧
       _shouldIncludeSet (resolveArg arg).specials = false)) :=
  secureGenerate_error_spec stream now arg fuel

/-- C10: a character class given as the empty string behaves exactly as a
class disabled with `false` — the whole generation result is equal for every
entropy stream, clock, and fuel — and disabling every class via empty
strings yields the no-character-types error. -/
theorem claim_C10 (stream : Nat → Nat) (now : Nat) (o : SecureGenerateOptions) (fuel : Nat) :
    (secureGenerate stream now (.opts { o with uppercase := some (.custom "") }) fuel =
      secureGenerate stream now (.opts { o with uppercase := some (.flag false) }) fuel) ∧
    (secureGenerate stream now (.opts { o with lowercase := some (.custom "") }) fuel =
      secureGenerate stream now (.opts { o with lowercase := some (.flag false) }) fuel) ∧
    (secureGenerate stream now (.opts { o with numbers := some (.custom "") }) fuel =
      secureGenerate stream now (.opts { o with numbers := some (.flag false) }) fuel) ∧
    (secureGenerate stream now (.opts { o with specials := some (.custom "") }) fuel =
      secureGenerate stream now (.opts { o with specials := some (.flag false) }) fuel) ∧
    secureGenerate stream now (.opts allEmptyStringOpts) fuel = .error .noCharTypes := by
  refine ⟨?_, ?_, ?_, ?_, ?_⟩
  · simp only [secureGenerate, resolveArg, Option.getD_some]
    have htseq :
        timestampString
          { length := o.length.getD DEFAULT_LENGTH, uppercase := ClassOpt.custom "", lowercase := o.lowercase.getD (ClassOpt.flag true), numbers := o.numbers.getD (ClassOpt.flag true), specials := o.specials.getD (ClassOpt.flag true), timestamp := o.timestamp } now =
        timestampString
          { length := o.length.getD DEFAULT_LENGTH, uppercase := ClassOpt.flag false, lowercase := o.lowercase.getD (ClassOpt.flag true), numbers := o.numbers.getD (ClassOpt.flag true), specials := o.specials.getD (ClassOpt.flag true), timestamp := o.timestamp } now := rfl
    rw [htseq,
      buildClass_disabled stream fuel (ClassOpt.custom "") DEFAULT_UPPERCASE (by decide),
      buildClass_disabled stream fuel (ClassOpt.flag false) DEFAULT_UPPERCASE (by decide)]
  · simp only [secureGenerate, resolveArg, Option.getD_some]
    have htseq :
        timestampString
          { length := o.length.getD DEFAULT_LENGTH, uppercase := o.uppercase.getD (ClassOpt.flag true), lowercase := ClassOpt.custom "", numbers := o.numbers.getD (ClassOpt.flag true), specials := o.specials.getD (ClassOpt.flag true), timestamp := o.timestamp } now =
        timestampString
          { length := o.length.getD DEFAULT_LENGTH, uppercase := o.uppercase.getD (ClassOpt.flag true), lowercase := ClassOpt.flag false, numbers := o.numbers.getD (ClassOpt.flag true), specials := o.specials.getD (ClassOpt.flag true), timestamp := o.timestamp } now := rfl
    rw [htseq,
      buildClass_disabled stream fuel (ClassOpt.custom "") DEFAULT_LOWERCASE (by decide),
      buildClass_disabled stream fuel (ClassOpt.flag false) DEFAULT_LOWERCASE (by decide)]
  · simp only [secureGenerate, resolveArg, Option.getD_some]
    have htseq :
        timestampString
          { length := o.length.getD DEFAULT_LENGTH, uppercase := o.uppercase.getD (ClassOpt.flag true), lowercase := o.lowercase.getD (ClassOpt.flag true), numbers := ClassOpt.custom "", specials := o.specials.getD (ClassOpt.flag true), timestamp := o.timestamp } now =
        timestampString
          { length := o.length.getD DEFAULT_LENGTH, uppercase := o.uppercase.getD (ClassOpt.flag true), lowercase := o.lowercase.getD (ClassOpt.flag true), numbers := ClassOpt.flag false, specials := o.specials.getD (ClassOpt.flag true), timestamp := o.timestamp } now := rfl
    rw [htseq,
      buildClass_disabled stream fuel (ClassOpt.custom "") DEFAULT_NUMBERS (by decide),
      buildClass_disabled stream fuel (ClassOpt.flag false) DEFAULT_NUMBERS (by decide)]
  · simp only [secureGenerate, resolveArg, Option.getD_some]
    have htseq :
        timestampString
          { length := o.length.getD DEFAULT_LENGTH, uppercase := o.uppercase.getD (ClassOpt.flag true), lowercase := o.lowercase.getD (ClassOpt.flag true), numbers := o.numbers.getD (ClassOpt.flag true), specials := ClassOpt.custom "", timestamp := o.timestamp } now =
        timestampString
          { length := o.length.getD DEFAULT_LENGTH, uppercase := o.uppercase.getD (ClassOpt.flag true), lowercase := o.lowercase.getD (ClassOpt.flag true), numbers := o.numbers.getD (ClassOpt.flag true), specials := ClassOpt.flag false, timestamp := o.timestamp } now := rfl
    rw [htseq,
      buildClass_disabled stream fuel (ClassOpt.custom "") DEFAULT_SPECIALS (by decide),
      buildClass_disabled stream fuel (ClassOpt.flag false) DEFAULT_SPECIALS (by decide)]
  · obtain ⟨-, -, hthird⟩ := secureGenerate_error_spec stream now
      (.opts allEmptyStringOpts) fuel
    refine hthird.mpr ⟨by decide, ?_, by decide, by decide, by decide, by decide⟩
    rw [show timestampString (resolveArg (.opts allEmptyStringOpts)) now = "" from rfl]
    simp

end Unsecure
